import Mathlib

/-!
Shallow embedding of the clustering and prototype-fitting core (`cluster.c`)
of the tesseract OCR training code, together with proofs about its
documented behaviour.

Conventions of the embedding:
* C floating-point values (`FLOAT32`, `FLOAT64`) are embedded as exact
  rationals (`ℚ`); counts are `ℕ`, char identifiers are `ℤ`.
* The `<math.h>` routines `sqrt`, `exp`, `log` and `pow(x, 1.0/n)` are
  deterministic library calls whose code is not part of this repository;
  they are abstracted as an oracle structure `LIBM` threaded through all
  definitions.  No claim proved below depends on their numeric values.
* C arrays are embedded as lists, indexed with `List.getD` (out-of-range
  reads yield the default `0`, out-of-range writes are dropped); theorems
  about indexing always come with the bounds that the source guarantees.
* Fallible code returns `Except`/`Option`; in-place mutation becomes
  functional record update.
-/

namespace Ocr

/-- Oracle bundling the `<math.h>` routines used by `cluster.c`.
`nroot q n` stands for `pow(q, 1.0/n)`. -/
structure LIBM where
  sqrt : ℚ → ℚ
  exp : ℚ → ℚ
  log : ℚ → ℚ
  nroot : ℚ → ℕ → ℚ

/-- Zero oracle, used only to instantiate witnesses on concrete inputs. -/
def lm0 : LIBM := ⟨fun _ => 0, fun _ => 0, fun _ => 0, fun _ _ => 0⟩

/-- Identity-sqrt oracle, used only to instantiate witnesses. -/
def lmId : LIBM := ⟨id, fun _ => 0, fun _ => 0, fun _ _ => 0⟩

/-- `MINVARIANCE` from cluster.c: `0.000004`. -/
def MINVARIANCE : ℚ := 4 / 1000000

/-- `MINSAMPLESNEEDED` from cluster.c. -/
def MINSAMPLESNEEDED : ℤ := 1

/-- `BUCKETTABLESIZE` from cluster.c. -/
def BUCKETTABLESIZE : ℕ := 1024

/-- `SqrtOf2Pi` constant from cluster.c (a literal in the source). -/
def SqrtOf2Pi : ℚ := 2506628275 / 1000000000

/-- `NormalStdDev = BUCKETTABLESIZE / (2.0 * NORMALEXTENT)` with `NORMALEXTENT = 3`. -/
def NormalStdDev : ℚ := 1024 / 6

/-- `NormalVariance = BUCKETTABLESIZE^2 / (4.0 * NORMALEXTENT^2)`. -/
def NormalVariance : ℚ := (1024 * 1024) / 36

/-- `NormalMagnitude = (2.0 * NORMALEXTENT) / (SqrtOf2Pi * BUCKETTABLESIZE)`. -/
def NormalMagnitude : ℚ := 6 / (SqrtOf2Pi * 1024)

/-- `NormalMean = BUCKETTABLESIZE / 2`. -/
def NormalMean : ℚ := 512

/-- `PI` comes from `const.h`, which is not part of the sources; the usual
tesseract value is used.  No claim depends on its numeric value. -/
def PI : ℚ := 3141592653589793 / 1000000000000000

/-- `MAX_FLOAT32` sentinel; only its role as a very large bound matters. -/
def MAXFLOAT32 : ℚ := 2 ^ 128

/-- `MINALPHA` from `ComputeChiSquared`: `1e-200`. -/
def MINALPHA : ℚ := 1 / 10 ^ 200

/-- `PARAM_DESC`: per-dimension descriptor (cluster.h fields, filled in by
`MakeClusterer`). -/
structure PARAM_DESC where
  Circular : Bool
  NonEssential : Bool
  Min : ℚ
  Max : ℚ
  Range : ℚ
  HalfRange : ℚ
  MidRange : ℚ
deriving DecidableEq

instance : Inhabited PARAM_DESC := ⟨⟨false, false, 0, 0, 0, 0, 0⟩⟩

/-- `DISTRIBUTION` enum (order as in cluster.h: it indexes
`DegreeOffsets = {3,3,1}` and the density table). -/
inductive DISTRIBUTION where
  | normal
  | uniform
  | D_random
deriving DecidableEq

/-- `PROTOSTYLE` enum. -/
inductive PROTOSTYLE where
  | spherical
  | elliptical
  | mixed
  | automatic
deriving DecidableEq

/-- Tri-state of a char id in the multi-character filter, as described by the
specification (`unseen`/`seen`/`illegal`).  The source encodes it in a
`BOOL8` with values `FALSE`, `TRUE`, `ILLEGAL_CHAR = 2`. -/
inductive CHARSTATE where
  | unseen
  | seen
  | illegal
deriving DecidableEq

/-- Numeric encoding of `CHARSTATE` used by the source (`FALSE`/`TRUE`/`ILLEGAL_CHAR`). -/
def encodeFlag : CHARSTATE → ℕ
  | .unseen => 0
  | .seen => 1
  | .illegal => 2

/-- `CLUSTER`: a node of the cluster tree.  In the source a leaf is a
`CLUSTER` whose `Left`/`Right` are `NULL`, whose `SampleCount` is 1 and whose
`CharID` is the sample's char id; an internal node has both children,
`CharID = -1`, and carries the merged sample count and mean. -/
inductive CLUSTER where
  | leaf (CharID : ℤ) (Mean : List ℚ)
  | node (SampleCount : ℕ) (Mean : List ℚ) (Left Right : CLUSTER)
deriving DecidableEq

instance : Inhabited CLUSTER := ⟨.leaf 0 []⟩

/-- `Cluster->SampleCount` (1 for a leaf sample). -/
def CLUSTER.SampleCount : CLUSTER → ℕ
  | .leaf _ _ => 1
  | .node n _ _ _ => n

/-- `Cluster->Mean`. -/
def CLUSTER.Mean : CLUSTER → List ℚ
  | .leaf _ m => m
  | .node _ m _ _ => m

/-- `Cluster->CharID` (`-1` for internal nodes). -/
def CLUSTER.CharID : CLUSTER → ℤ
  | .leaf i _ => i
  | .node _ _ _ _ => -1

/-- Number of nodes of the tree; used as iteration fuel. -/
def CLUSTER.size : CLUSTER → ℕ
  | .leaf _ _ => 1
  | .node _ _ l r => 1 + l.size + r.size

/-- The leaf samples below a cluster, left to right.  This is the sequence
that the `InitSampleSearch`/`NextSample` traversal of the source enumerates
(proved below as `SampleSearchAll_eq_leaves`). -/
def CLUSTER.leaves : CLUSTER → List CLUSTER
  | .leaf i m => [.leaf i m]
  | .node _ _ l r => l.leaves ++ r.leaves

/-- Leaves of every cluster on a search stack, in traversal order. -/
def stackLeaves : List CLUSTER → List CLUSTER
  | [] => []
  | c :: rest => c.leaves ++ stackLeaves rest

/-- Inner loop of `NextSample`: descend along `Left`, pushing each `Right`
onto the search state, until a leaf is reached. -/
def NextSampleDescend : CLUSTER → List CLUSTER → CLUSTER × List CLUSTER
  | .leaf i m, st => (.leaf i m, st)
  | .node _ _ l r, st => NextSampleDescend l (r :: st)

/-- `NextSample`: pop the top cluster and descend to the next leaf;
`none` when the search state is exhausted. -/
def NextSample : List CLUSTER → Option (CLUSTER × List CLUSTER)
  | [] => none
  | c :: rest => some (NextSampleDescend c rest)

/-- Repeatedly call `NextSample`, collecting the returned samples.  The fuel
bounds the number of iterations of the source's `while` loop; any fuel at
least the number of leaves is enough (see `SampleSearchGo_eq`). -/
def SampleSearchGo : ℕ → List CLUSTER → List CLUSTER
  | 0, _ => []
  | fuel + 1, st =>
    match NextSample st with
    | none => []
    | some (s, st') => s :: SampleSearchGo fuel st'

/-- `InitSampleSearch`: the initial search state is the singleton stack. -/
def InitSampleSearch (c : CLUSTER) : List CLUSTER := [c]

/-- All samples of a cluster as enumerated by the `NextSample` loop. -/
def SampleSearchAll (c : CLUSTER) : List CLUSTER :=
  SampleSearchGo c.size (InitSampleSearch c)

/-- `MergeClusters`' per-dimension mean computation, including the circular
wrap correction and the renormalization back into range. -/
def MergeMean (p : PARAM_DESC) (n1 n2 : ℕ) (m1 m2 : ℚ) : ℚ :=
  let n : ℚ := (n1 : ℚ) + (n2 : ℚ)
  if p.Circular then
    if m2 - m1 > p.HalfRange then
      let m := ((n1 : ℚ) * m1 + (n2 : ℚ) * (m2 - p.Range)) / n
      if m < p.Min then m + p.Range else m
    else if m1 - m2 > p.HalfRange then
      let m := ((n1 : ℚ) * (m1 - p.Range) + (n2 : ℚ) * m2) / n
      if m < p.Min then m + p.Range else m
    else ((n1 : ℚ) * m1 + (n2 : ℚ) * m2) / n
  else ((n1 : ℚ) * m1 + (n2 : ℚ) * m2) / n

/-- `MergeClusters`: returns the sample count and the mean of the merged
cluster. -/
def MergeClusters (pd : List PARAM_DESC) (N : ℕ) (n1 n2 : ℕ)
    (m1 m2 : List ℚ) : ℕ × List ℚ :=
  (n1 + n2,
   (List.range N).map fun i =>
     MergeMean (pd.getD i default) n1 n2 (m1.getD i 0) (m2.getD i 0))

/-- `MakeNewCluster`: allocate the internal cluster for two children and fill
in its count and mean via `MergeClusters`.  (Marking the children as
clustered and the kd-tree delete/store are represented by the caller removing
them from its worklist.) -/
def MakeNewCluster (pd : List PARAM_DESC) (N : ℕ) (l r : CLUSTER) : CLUSTER :=
  let res := MergeClusters pd N l.SampleCount r.SampleCount l.Mean r.Mean
  CLUSTER.node res.1 res.2 l r

/-- Formalization of the specification's merge-mean description for a
circular dimension: the sample-count-weighted average with the farther mean
shifted by one range, then brought back into `[Min, Max)` by adding `Range`
once if the average fell below `Min`. -/
def CircularWeightedAverage (p : PARAM_DESC) (n1 n2 : ℕ) (m1 m2 : ℚ) : ℚ :=
  let n : ℚ := (n1 : ℚ) + (n2 : ℚ)
  let a :=
    if m2 - m1 > p.HalfRange then ((n1 : ℚ) * m1 + (n2 : ℚ) * (m2 - p.Range)) / n
    else if m1 - m2 > p.HalfRange then ((n1 : ℚ) * (m1 - p.Range) + (n2 : ℚ) * m2) / n
    else ((n1 : ℚ) * m1 + (n2 : ℚ) * m2) / n
  if a < p.Min then a + p.Range else a

/-- `SAMPLE`: the structure filled in by `MakeSample` (in the source a
`SAMPLE` is a `CLUSTER`; the explicit fields let the initialization of every
field be stated). -/
structure SAMPLE where
  Clustered : Bool
  Prototype : Bool
  SampleCount : ℕ
  Left : Option CLUSTER
  Right : Option CLUSTER
  CharID : ℤ
  Mean : List ℚ
deriving DecidableEq

/-- View of a stored sample as a leaf of the cluster tree. -/
def SAMPLE.toCluster (s : SAMPLE) : CLUSTER := .leaf s.CharID s.Mean

/-- The `FLOATUNION` of cluster.h: a scalar for spherical prototypes, a
per-dimension vector otherwise. -/
inductive FLOATUNION where
  | Spherical (v : ℚ)
  | Elliptical (vs : List ℚ)
deriving DecidableEq

/-- Read the union through its `Spherical` member. -/
def FLOATUNION.sph : FLOATUNION → ℚ
  | .Spherical v => v
  | .Elliptical _ => 0

/-- Read the union through its `Elliptical` member. -/
def FLOATUNION.ell : FLOATUNION → List ℚ
  | .Spherical _ => []
  | .Elliptical vs => vs

/-- `PROTOTYPE` (cluster.h). -/
structure PROTOTYPE where
  Significant : Bool
  Style : PROTOSTYLE
  NumSamples : ℕ
  Cluster : CLUSTER
  Mean : List ℚ
  Distrib : Option (List DISTRIBUTION)
  Variance : FLOATUNION
  Magnitude : FLOATUNION
  Weight : FLOATUNION
  TotalMagnitude : ℚ
  LogMagnitude : ℚ
deriving DecidableEq

/-- `STATISTICS` (cluster.c). -/
structure STATISTICS where
  AvgVariance : ℚ
  CoVariance : List ℚ
  Min : List ℚ
  Max : List ℚ
deriving DecidableEq

/-- `CLUSTERCONFIG` (cluster.h). -/
structure CLUSTERCONFIG where
  ProtoStyle : PROTOSTYLE
  MinSamples : ℚ
  MaxIllegal : ℚ
  Independence : ℚ
  Confidence : ℚ
deriving DecidableEq

/-- The circular-wrap corrected deviation `Distance[i]` computed by
`ComputeStatistics`. -/
def Deviation (p : PARAM_DESC) (x m : ℚ) : ℚ :=
  let d := x - m
  let d := if p.Circular ∧ d > p.HalfRange then d - p.Range else d
  let d := if p.Circular ∧ d < -p.HalfRange then d + p.Range else d
  d

/-- Deviation vector of one sample from the cluster mean. -/
def SampleDeviations (N : ℕ) (pd : List PARAM_DESC) (cm : List ℚ)
    (s : CLUSTER) : List ℚ :=
  (List.range N).map fun i =>
    Deviation (pd.getD i default) (s.Mean.getD i 0) (cm.getD i 0)

/-- Sample loop of `ComputeStatistics`: accumulate per-dimension min, max and
the flattened sum of outer products of the deviations. -/
def CSLoop (N : ℕ) (pd : List PARAM_DESC) (cm : List ℚ) :
    List CLUSTER → List ℚ × List ℚ × List ℚ → List ℚ × List ℚ × List ℚ
  | [], st => st
  | s :: rest, (mn, mx, cov) =>
    let devs := SampleDeviations N pd cm s
    CSLoop N pd cm rest
      ((List.range N).map fun i => min (mn.getD i 0) (devs.getD i 0),
       (List.range N).map fun i => max (mx.getD i 0) (devs.getD i 0),
       (List.range (N * N)).map fun k =>
         cov.getD k 0 + devs.getD (k / N) 0 * devs.getD (k % N) 0)

/-- `ComputeStatistics`. -/
def ComputeStatistics (lm : LIBM) (N : ℕ) (pd : List PARAM_DESC)
    (cluster : CLUSTER) : STATISTICS :=
  let init := (List.replicate N (0 : ℚ), List.replicate N (0 : ℚ),
    List.replicate (N * N) (0 : ℚ))
  let acc := CSLoop N pd cluster.Mean (SampleSearchAll cluster) init
  let scab : ℕ := if cluster.SampleCount > 1 then cluster.SampleCount - 1 else 1
  let cov := acc.2.2.map (· / (scab : ℚ))
  let avg := lm.nroot
    ((List.range N).foldl (fun a i => a * cov.getD (i * (N + 1)) 0) 1) N
  ⟨avg, cov, acc.1, acc.2.1⟩

/-- Sample loop of `MultipleCharSamples`.  `CharFlags` holds the numeric
tri-state per char id (`0` unseen, `1` seen, `2` illegal). -/
def MCSLoop (MaxIllegal : ℚ) :
    List CLUSTER → List ℕ → ℕ → ℕ → Bool
  | [], _, _, _ => false
  | s :: rest, CharFlags, NumCharInCluster, NumIllegalInCluster =>
    let CharID := s.CharID.toNat
    if CharFlags.getD CharID 0 = 0 then
      MCSLoop MaxIllegal rest (CharFlags.set CharID 1) NumCharInCluster
        NumIllegalInCluster
    else
      let pr :=
        if CharFlags.getD CharID 0 = 1 then
          (NumIllegalInCluster + 1, CharFlags.set CharID 2)
        else (NumIllegalInCluster, CharFlags)
      let NumCharInCluster := NumCharInCluster - 1
      if (pr.1 : ℚ) / (NumCharInCluster : ℚ) > MaxIllegal then true
      else MCSLoop MaxIllegal rest pr.2 NumCharInCluster pr.1

/-- `MultipleCharSamples`.  The source keeps the flag array in a static
buffer grown to `NumChar`; with char ids in `[0, NumChar)` (as the source
requires) a fresh array of size `NumChar` has identical behaviour. -/
def MultipleCharSamples (NumChar : ℤ) (cluster : CLUSTER)
    (MaxIllegal : ℚ) : Bool :=
  MCSLoop MaxIllegal (SampleSearchAll cluster)
    (List.replicate NumChar.toNat 0) cluster.SampleCount 0

/-- Specification-side multi-character filter, following the wording of the
spec (§4.5): walk the leaf samples, keep a tri-state per char id sized to
`NumChar`, and on each sample whose id is no longer unseen mark it illegal
(counting it the first time this happens), decrement the running denominator
and return true as soon as `illegal_count / char_count > max_illegal`. -/
def MCSSpecLoop (MaxIllegal : ℚ) :
    List CLUSTER → List CHARSTATE → ℕ → ℕ → Bool
  | [], _, _, _ => false
  | s :: rest, flags, charCount, illegalCount =>
    let k := s.CharID.toNat
    match flags.getD k .unseen with
    | .unseen => MCSSpecLoop MaxIllegal rest (flags.set k .seen) charCount illegalCount
    | .seen =>
      let illegalCount := illegalCount + 1
      let charCount := charCount - 1
      if (illegalCount : ℚ) / (charCount : ℚ) > MaxIllegal then true
      else MCSSpecLoop MaxIllegal rest (flags.set k .illegal) charCount illegalCount
    | .illegal =>
      let charCount := charCount - 1
      if (illegalCount : ℚ) / (charCount : ℚ) > MaxIllegal then true
      else MCSSpecLoop MaxIllegal rest flags charCount illegalCount

/-- Specification-side `multiple_char_samples` over the leaf list. -/
def MultipleCharSamplesSpec (NumChar : ℤ) (cluster : CLUSTER)
    (MaxIllegal : ℚ) : Bool :=
  MCSSpecLoop MaxIllegal cluster.leaves
    (List.replicate NumChar.toNat .unseen) cluster.SampleCount 0

/-- The `CountTable`/`BucketsTable` lookup pairs of cluster.c (from the
second entry on; the first pair `(25, 5)` is the loop's starting point). -/
def LookupTable : List (ℕ × ℕ) :=
  [(25, 5), (200, 16), (400, 20), (600, 24), (800, 27), (1000, 30),
   (1500, 35), (2000, 39)]

/-- Interpolation loop of `OptimumNumberOfBuckets`; the `UINT16` cast of the
interpolated value truncates, i.e. floors, the (nonnegative) result. -/
def ONBLoop (SampleCount : ℕ) : ℕ × ℕ → List (ℕ × ℕ) → ℕ
  | (_, lb), [] => lb
  | (lc, lb), (nc, nb) :: rest =>
    if SampleCount ≤ nc then
      (⌊(lb : ℚ) + (((nb : ℚ) - (lb : ℚ)) / ((nc : ℚ) - (lc : ℚ)))
        * ((SampleCount : ℚ) - (lc : ℚ))⌋).toNat
    else ONBLoop SampleCount (nc, nb) rest

/-- `OptimumNumberOfBuckets`. -/
def OptimumNumberOfBuckets (SampleCount : ℕ) : ℕ :=
  if SampleCount < 25 then 5
  else ONBLoop SampleCount (25, 5) (LookupTable.drop 1)

/-- `DegreeOffsets = {3, 3, 1}` indexed by distribution. -/
def DegreeOffset : DISTRIBUTION → ℕ
  | .normal => 3
  | .uniform => 3
  | .D_random => 1

/-- `DegreesOfFreedom`: subtract the offset, round up to even. -/
def DegreesOfFreedom (d : DISTRIBUTION) (HistogramBuckets : ℕ) : ℕ :=
  let a := HistogramBuckets - DegreeOffset d
  if a % 2 = 1 then a + 1 else a

/-- `ChiArea`: series for the chi-squared tail area minus alpha (even
degrees of freedom). -/
def ChiArea (lm : LIBM) (DegreesOfFreedom : ℕ) (Alpha : ℚ) (x : ℚ) : ℚ :=
  let N := DegreesOfFreedom / 2 - 1
  let st := (List.range N).foldl
    (fun (st : ℚ × ℚ × ℚ) i =>
      let den := st.2.1 * (2 * ((i : ℚ) + 1))
      let pow := st.2.2 * x
      (st.1 + pow / den, den, pow)) (1, 1, 1)
  st.1 * lm.exp (-(1 : ℚ) / 2 * x) - Alpha

/-- Iteration bound for the source's (potentially nonterminating) `Solve`
loop.  No claim depends on the value that `Solve` produces. -/
def SOLVEFUEL : ℕ := 100

/-- Body of `Solve`: secant-like root search with shrinking slope delta. -/
def SolveLoop (f : ℚ → ℚ) (Accuracy : ℚ) :
    ℕ → ℚ → ℚ → ℚ → ℚ → ℚ
  | 0, x, _, _, _ => x
  | fuel + 1, x, Delta, LastPosX, LastNegX =>
    if |LastPosX - LastNegX| ≤ Accuracy then x
    else
      let f0 := f x
      let bounds := if f0 < 0 then (LastPosX, x) else (x, LastNegX)
      let Slope := (f (x + Delta) - f0) / Delta
      let xDelta := f0 / Slope
      let x := x - xDelta
      let NewDelta := |xDelta| * (1 / 10)
      let Delta := if NewDelta < Delta then NewDelta else Delta
      SolveLoop f Accuracy fuel x Delta bounds.1 bounds.2

/-- `Solve` with `INITIALDELTA = 0.1` and the `MAX_FLOAT32` sentinels. -/
def Solve (f : ℚ → ℚ) (InitialGuess Accuracy : ℚ) : ℚ :=
  SolveLoop f Accuracy SOLVEFUEL InitialGuess (1 / 10) MAXFLOAT32 (-MAXFLOAT32)

/-- `ComputeChiSquared`: clamp alpha, round the degrees of freedom up to
even, and solve `ChiArea = 0`.  The source's per-dof memo cache only avoids
recomputation of this pure function and is omitted. -/
def ComputeChiSquared (lm : LIBM) (DegreesOfFreedom : ℕ) (Alpha : ℚ) : ℚ :=
  let Alpha := if Alpha < MINALPHA then MINALPHA else Alpha
  let Alpha := if Alpha > 1 then 1 else Alpha
  let dof := if DegreesOfFreedom % 2 = 1 then DegreesOfFreedom + 1
    else DegreesOfFreedom
  Solve (ChiArea lm dof Alpha) (dof : ℚ) (1 / 100)

/-- `NormalDensity`: discrete normal density at an integer coordinate. -/
def NormalDensity (lm : LIBM) (x : ℤ) : ℚ :=
  let Distance := (x : ℚ) - NormalMean
  NormalMagnitude * lm.exp (-(1 : ℚ) / 2 * Distance * Distance / NormalVariance)

/-- `UniformDensity`: `1/BUCKETTABLESIZE` on `[0, BUCKETTABLESIZE]`, else 0. -/
def UniformDensity (x : ℤ) : ℚ :=
  if 0 ≤ x ∧ x ≤ 1024 then 1 / 1024 else 0

/-- The `DensityFunction` table `{NormalDensity, UniformDensity, UniformDensity}`. -/
def DensityFunction (lm : LIBM) : DISTRIBUTION → ℤ → ℚ
  | .normal => NormalDensity lm
  | .uniform => UniformDensity
  | .D_random => UniformDensity

/-- `Integral`: trapezoidal rule. -/
def Integral (f1 f2 Dx : ℚ) : ℚ := (f1 + f2) * Dx / 2

/-- `BUCKETS` (cluster.c). -/
structure BUCKETS where
  Distribution : DISTRIBUTION
  SampleCount : ℕ
  Confidence : ℚ
  ChiSquared : ℚ
  NumberOfBuckets : ℕ
  Bucket : List ℕ
  Count : List ℕ
  ExpectedCount : List ℚ
deriving DecidableEq

/-- State of the upper-half fill loop of `MakeBuckets`. -/
structure MBState where
  CurrentBucket : ℕ
  NextBucketBoundary : ℚ
  Probability : ℚ
  LastProbDensity : ℚ
  BucketTbl : List ℕ
  EC : List ℚ

/-- One iteration of the upper-half fill loop of `MakeBuckets` at table
index `i`. -/
def MBStep (lm : LIBM) (d : DISTRIBUTION) (B SampleCount : ℕ)
    (st : MBState) (i : ℕ) : MBState :=
  let ProbDensity := DensityFunction lm d ((i : ℤ) + 1)
  let ProbabilityDelta := Integral st.LastProbDensity ProbDensity 1
  let Probability := st.Probability + ProbabilityDelta
  let CurrentBucket :=
    if Probability > st.NextBucketBoundary then
      if st.CurrentBucket < B - 1 then st.CurrentBucket + 1
      else st.CurrentBucket
    else st.CurrentBucket
  let NextBucketBoundary :=
    if Probability > st.NextBucketBoundary then
      st.NextBucketBoundary + 1 / (B : ℚ)
    else st.NextBucketBoundary
  { CurrentBucket := CurrentBucket
    NextBucketBoundary := NextBucketBoundary
    Probability := Probability
    LastProbDensity := ProbDensity
    BucketTbl := st.BucketTbl ++ [CurrentBucket]
    EC := st.EC.set CurrentBucket
      (st.EC.getD CurrentBucket 0 + ProbabilityDelta * (SampleCount : ℚ)) }

/-- Final assembly step of `MakeBuckets` from the state left by the fill
loop: add the leftover expected mass to the current bucket, mirror the upper
half of the lookup table into the lower half, and aggregate the expected
counts symmetrically. -/
def MakeBucketsCore (d : DISTRIBUTION) (SampleCount : ℕ) (Confidence : ℚ)
    (chi : ℚ) (B : ℕ) (fin : MBState) : BUCKETS :=
  let EC1 := fin.EC.set fin.CurrentBucket
    (fin.EC.getD fin.CurrentBucket 0 + (1 / 2 - fin.Probability) * (SampleCount : ℚ))
  let Bucket :=
    ((List.range 512).map fun i => B - 1 - fin.BucketTbl.getD (511 - i) 0)
      ++ fin.BucketTbl
  let EC := (List.range B).map fun i =>
    if i ≤ B - 1 - i then EC1.getD i 0 + EC1.getD (B - 1 - i) 0
    else EC1.getD i 0
  ⟨d, SampleCount, Confidence, chi, B, Bucket, List.replicate B 0, EC⟩

/-- `MakeBuckets` with the bucket count as an explicit argument (the source
computes it once at the top from the sample count). -/
def MakeBucketsB (lm : LIBM) (d : DISTRIBUTION) (B SampleCount : ℕ)
    (Confidence : ℚ) : BUCKETS :=
  let chi := ComputeChiSquared lm (DegreesOfFreedom d B) Confidence
  let init : MBState :=
    { CurrentBucket := B / 2
      NextBucketBoundary := if B % 2 = 1 then 1 / (2 * (B : ℚ)) else 1 / (B : ℚ)
      Probability := 0
      LastProbDensity := DensityFunction lm d 512
      BucketTbl := []
      EC := List.replicate B 0 }
  let fin := (List.range' 512 512).foldl (MBStep lm d B SampleCount) init
  MakeBucketsCore d SampleCount Confidence chi B fin

/-- `MakeBuckets`. -/
def MakeBuckets (lm : LIBM) (d : DISTRIBUTION) (SampleCount : ℕ)
    (Confidence : ℚ) : BUCKETS :=
  MakeBucketsB lm d (OptimumNumberOfBuckets SampleCount) SampleCount Confidence

/-- `AdjustBuckets`: rescale the expected counts to a new sample count. -/
def AdjustBuckets (bkts : BUCKETS) (NewSampleCount : ℕ) : BUCKETS :=
  { bkts with
    ExpectedCount := bkts.ExpectedCount.map
      (· * ((NewSampleCount : ℚ) / (bkts.SampleCount : ℚ)))
    SampleCount := NewSampleCount }

/-- `InitBuckets`: zero the observed counts. -/
def InitBuckets (bkts : BUCKETS) : BUCKETS :=
  { bkts with Count := List.replicate bkts.NumberOfBuckets 0 }

/-- The confidence branch of `GetBuckets`: if the requested confidence
differs from the stored one, store it and recompute the chi-squared
threshold. -/
def ConfidenceUpdate (lm : LIBM) (bkts : BUCKETS) (Confidence : ℚ) : BUCKETS :=
  if Confidence = bkts.Confidence then bkts
  else
    { bkts with
      Confidence := Confidence
      ChiSquared := ComputeChiSquared lm
        (DegreesOfFreedom bkts.Distribution bkts.NumberOfBuckets) Confidence }

/-- `GetBuckets`.  The source first searches a per-distribution pool for a
structure with the same bucket count and, when found, rescales its expected
counts (`AdjustBuckets`), refreshes the chi-squared threshold
(`ConfidenceUpdate`) and zeroes the observed counts (`InitBuckets`); in
exact arithmetic this reproduces `MakeBuckets` field for field (proved below
as `GetBucketsPoolReuseFaithful`), so the pool — a pure cache — is elided
here. -/
def GetBuckets (lm : LIBM) (d : DISTRIBUTION) (SampleCount : ℕ)
    (Confidence : ℚ) : BUCKETS :=
  MakeBuckets lm d SampleCount Confidence

/-- `NormalBucket`: normalize `x` to the discrete normal coordinate and clip
to `[0, BUCKETTABLESIZE - 1]`. -/
def NormalBucket (pdD : PARAM_DESC) (x Mean StdDev : ℚ) : ℕ :=
  let x :=
    if pdD.Circular then
      if x - Mean > pdD.HalfRange then x - pdD.Range
      else if x - Mean < -pdD.HalfRange then x + pdD.Range
      else x
    else x
  let X := ((x - Mean) / StdDev) * NormalStdDev + NormalMean
  if X < 0 then 0
  else if X > 1023 then 1023
  else (⌊X⌋).toNat

/-- `UniformBucket`: normalize `x` to the discrete uniform coordinate and
clip to `[0, BUCKETTABLESIZE - 1]`. -/
def UniformBucket (pdD : PARAM_DESC) (x Mean StdDev : ℚ) : ℕ :=
  let x :=
    if pdD.Circular then
      if x - Mean > pdD.HalfRange then x - pdD.Range
      else if x - Mean < -pdD.HalfRange then x + pdD.Range
      else x
    else x
  let X := (x - Mean) / (2 * StdDev) * 1024 + 512
  if X < 0 then 0
  else if X > 1023 then 1023
  else (⌊X⌋).toNat

/-- Zero-standard-deviation loop of `FillBuckets`: samples above the mean go
to the last bucket, below the mean to the first bucket, and samples exactly
at the mean get the running index `i`, which is incremented (mod the number
of buckets) after every sample. -/
def FillZeroLoop (B : ℕ) (dim : ℕ) (mean : ℚ) :
    List CLUSTER → ℕ → List ℕ → List ℕ
  | [], _, counts => counts
  | s :: rest, i, counts =>
    let BucketID :=
      if s.Mean.getD dim 0 > mean then B - 1
      else if s.Mean.getD dim 0 < mean then 0
      else i
    let counts := counts.set BucketID (counts.getD BucketID 0 + 1)
    let i := i + 1
    let i := if i ≥ B then 0 else i
    FillZeroLoop B dim mean rest i counts

/-- Statistical loop of `FillBuckets`: normalize each sample and bump the
bucket cell selected by the lookup table. -/
def FillStatLoop (bkts : BUCKETS) (dim : ℕ) (pdD : PARAM_DESC)
    (mean sd : ℚ) : List CLUSTER → List ℕ → List ℕ
  | [], counts => counts
  | s :: rest, counts =>
    let BucketID :=
      match bkts.Distribution with
      | .normal => NormalBucket pdD (s.Mean.getD dim 0) mean sd
      | .D_random => UniformBucket pdD (s.Mean.getD dim 0) mean sd
      | .uniform => UniformBucket pdD (s.Mean.getD dim 0) mean sd
    let idx := bkts.Bucket.getD BucketID 0
    FillStatLoop bkts dim pdD mean sd rest (counts.set idx (counts.getD idx 0 + 1))

/-- `FillBuckets`. -/
def FillBuckets (bkts : BUCKETS) (cluster : CLUSTER) (dim : ℕ)
    (pdD : PARAM_DESC) (mean sd : ℚ) : BUCKETS :=
  let zero := List.replicate bkts.NumberOfBuckets 0
  if sd = 0 then
    { bkts with
      Count := FillZeroLoop bkts.NumberOfBuckets dim mean
        (SampleSearchAll cluster) 0 zero }
  else
    { bkts with
      Count := FillStatLoop bkts dim pdD mean sd (SampleSearchAll cluster) zero }

/-- `DistributionOK`: chi-squared goodness-of-fit test. -/
def DistributionOK (bkts : BUCKETS) : Bool :=
  let td := ((List.range bkts.NumberOfBuckets).map fun i =>
    let fd := (bkts.Count.getD i 0 : ℚ) - bkts.ExpectedCount.getD i 0
    fd * fd / bkts.ExpectedCount.getD i 0).sum
  decide (td ≤ bkts.ChiSquared)

/-- Specification-side description of the zero-standard-deviation bucket
assignment: the target cell of each sample in walk order, with the
round-robin index advanced after every sample. -/
def RoundRobinTargets (B : ℕ) (mean : ℚ) : ℕ → List ℚ → List ℕ
  | _, [] => []
  | i, v :: rest =>
    (if v > mean then B - 1 else if v < mean then 0 else i) ::
      RoundRobinTargets B mean (if i + 1 ≥ B then 0 else i + 1) rest

/-- `NewSimpleProto`.  The variance/magnitude/weight fields are left
uninitialized by the source at this point; they are defaulted here and are
always overwritten before use by the callers. -/
def NewSimpleProto (N : ℕ) (cluster : CLUSTER) : PROTOTYPE :=
  { Significant := true
    Style := .spherical
    NumSamples := cluster.SampleCount
    Cluster := cluster
    Mean := (List.range N).map fun i => cluster.Mean.getD i 0
    Distrib := none
    Variance := .Spherical 0
    Magnitude := .Spherical 0
    Weight := .Spherical 0
    TotalMagnitude := 0
    LogMagnitude := 0 }

/-- `NewSphericalProto`. -/
def NewSphericalProto (lm : LIBM) (N : ℕ) (cluster : CLUSTER)
    (stats : STATISTICS) : PROTOTYPE :=
  let p := NewSimpleProto N cluster
  let v := if stats.AvgVariance < MINVARIANCE then MINVARIANCE
    else stats.AvgVariance
  let mag := 1 / lm.sqrt (2 * PI * v)
  let tot := mag ^ N
  { p with
    Variance := .Spherical v
    Magnitude := .Spherical mag
    Weight := .Spherical (1 / v)
    TotalMagnitude := tot
    LogMagnitude := lm.log tot }

/-- `NewEllipticalProto`. -/
def NewEllipticalProto (lm : LIBM) (N : ℕ) (cluster : CLUSTER)
    (stats : STATISTICS) : PROTOTYPE :=
  let p := NewSimpleProto N cluster
  let vs := (List.range N).map fun i =>
    let c := stats.CoVariance.getD (i * (N + 1)) 0
    if c < MINVARIANCE then MINVARIANCE else c
  let mags := vs.map fun v => 1 / lm.sqrt (2 * PI * v)
  let ws := vs.map fun v => 1 / v
  let tot := mags.foldl (· * ·) 1
  { p with
    Style := .elliptical
    Variance := .Elliptical vs
    Magnitude := .Elliptical mags
    Weight := .Elliptical ws
    TotalMagnitude := tot
    LogMagnitude := lm.log tot }

/-- `NewMixedProto`: an elliptical prototype with every dimension marked
normal. -/
def NewMixedProto (lm : LIBM) (N : ℕ) (cluster : CLUSTER)
    (stats : STATISTICS) : PROTOTYPE :=
  let p := NewEllipticalProto lm N cluster stats
  { p with Distrib := some (List.replicate N .normal), Style := .mixed }

/-- `MakeDimRandom`. -/
def MakeDimRandom (lm : LIBM) (i : ℕ) (p : PROTOTYPE)
    (pdD : PARAM_DESC) : PROTOTYPE :=
  let oldmag := p.Magnitude.ell.getD i 0
  let newmag := 1 / pdD.Range
  let tot := p.TotalMagnitude / oldmag * newmag
  { p with
    Distrib := some ((p.Distrib.getD []).set i .D_random)
    Mean := p.Mean.set i pdD.MidRange
    Variance := .Elliptical (p.Variance.ell.set i pdD.HalfRange)
    Magnitude := .Elliptical (p.Magnitude.ell.set i newmag)
    TotalMagnitude := tot
    LogMagnitude := lm.log tot }

/-- `MakeDimUniform`. -/
def MakeDimUniform (lm : LIBM) (i : ℕ) (p : PROTOTYPE)
    (stats : STATISTICS) : PROTOTYPE :=
  let v0 := (stats.Max.getD i 0 - stats.Min.getD i 0) / 2
  let v := if v0 < MINVARIANCE then MINVARIANCE else v0
  let oldmag := p.Magnitude.ell.getD i 0
  let newmag := 1 / (2 * v)
  let tot := p.TotalMagnitude / oldmag * newmag
  { p with
    Distrib := some ((p.Distrib.getD []).set i .uniform)
    Mean := p.Mean.set i
      (p.Cluster.Mean.getD i 0 + (stats.Min.getD i 0 + stats.Max.getD i 0) / 2)
    Variance := .Elliptical (p.Variance.ell.set i v)
    Magnitude := .Elliptical (p.Magnitude.ell.set i newmag)
    TotalMagnitude := tot
    LogMagnitude := lm.log tot }

/-- `Mean` accessor of a prototype. -/
def Mean (p : PROTOTYPE) (Dimension : ℕ) : ℚ := p.Mean.getD Dimension 0

/-- `StandardDeviation`: square root of the stored variance, except that for
uniform and random dimensions of a mixed prototype the stored value (the
half extent) is returned as is.  (For the `automatic` style the source's
switch falls through to `return 0.0f`.) -/
def StandardDeviation (lm : LIBM) (p : PROTOTYPE) (Dimension : ℕ) : ℚ :=
  match p.Style with
  | .spherical => lm.sqrt p.Variance.sph
  | .elliptical => lm.sqrt (p.Variance.ell.getD Dimension 0)
  | .mixed =>
    match (p.Distrib.getD []).getD Dimension .normal with
    | .normal => lm.sqrt (p.Variance.ell.getD Dimension 0)
    | .uniform => p.Variance.ell.getD Dimension 0
    | .D_random => p.Variance.ell.getD Dimension 0
  | .automatic => 0

/-- `MakeDegenerateProto`. -/
def MakeDegenerateProto (lm : LIBM) (N : ℕ) (cluster : CLUSTER)
    (stats : STATISTICS) (Style : PROTOSTYLE) (MinSamples : ℤ) :
    Option PROTOTYPE :=
  let MinSamples := if MinSamples < MINSAMPLESNEEDED then MINSAMPLESNEEDED
    else MinSamples
  if (cluster.SampleCount : ℤ) < MinSamples then
    let p :=
      match Style with
      | .spherical => NewSphericalProto lm N cluster stats
      | .elliptical => NewEllipticalProto lm N cluster stats
      | .automatic => NewEllipticalProto lm N cluster stats
      | .mixed => NewMixedProto lm N cluster stats
    some { p with Significant := false }
  else none

/-- Correlation coefficient computed by `Independent` for dimensions
`i < j`: `sqrt (sqrt (cov_ij^2 / (cov_ii * cov_jj)))`, or `0` when either
diagonal entry is zero. -/
def CorrelationCoeff (lm : LIBM) (cov : List ℚ) (N i j : ℕ) : ℚ :=
  let vii := cov.getD (i * (N + 1)) 0
  let vjj := cov.getD (j * (N + 1)) 0
  let cij := cov.getD (i * N + j) 0
  if vii = 0 ∨ vjj = 0 then 0
  else lm.sqrt (lm.sqrt (cij * cij / (vii * vjj)))

/-- `Independent`: scan the strict upper triangle over essential dimensions
and fail as soon as a correlation exceeds the independence threshold. -/
def Independent (lm : LIBM) (pd : List PARAM_DESC) (N : ℕ)
    (cov : List ℚ) (Independence : ℚ) : Bool :=
  (List.range N).all fun i =>
    if (pd.getD i default).NonEssential then true
    else
      (List.range' (i + 1) (N - (i + 1))).all fun j =>
        if (pd.getD j default).NonEssential then true
        else decide (CorrelationCoeff lm cov N i j ≤ Independence)

/-- `MakeSphericalProto`: every essential dimension must pass the normal
test with stddev `sqrt AvgVariance`. -/
def MakeSphericalProto (lm : LIBM) (N : ℕ) (pd : List PARAM_DESC)
    (cluster : CLUSTER) (stats : STATISTICS) (bkts : BUCKETS) :
    Option PROTOTYPE :=
  if (List.range N).all (fun i =>
      (pd.getD i default).NonEssential ||
      DistributionOK (FillBuckets bkts cluster i (pd.getD i default)
        (cluster.Mean.getD i 0) (lm.sqrt stats.AvgVariance))) then
    some (NewSphericalProto lm N cluster stats)
  else none

/-- `MakeEllipticalProto`: per-dimension stddev from the covariance
diagonal. -/
def MakeEllipticalProto (lm : LIBM) (N : ℕ) (pd : List PARAM_DESC)
    (cluster : CLUSTER) (stats : STATISTICS) (bkts : BUCKETS) :
    Option PROTOTYPE :=
  if (List.range N).all (fun i =>
      (pd.getD i default).NonEssential ||
      DistributionOK (FillBuckets bkts cluster i (pd.getD i default)
        (cluster.Mean.getD i 0)
        (lm.sqrt (stats.CoVariance.getD (i * (N + 1)) 0)))) then
    some (NewEllipticalProto lm N cluster stats)
  else none

/-- Per-dimension step of `MakeMixedProto`: try normal, then random, then
uniform, mutating the prototype; `none` when all three fail. -/
def MMPStep (lm : LIBM) (pd : List PARAM_DESC) (cluster : CLUSTER)
    (stats : STATISTICS) (NormalBuckets : BUCKETS) (Confidence : ℚ)
    (p : PROTOTYPE) (i : ℕ) : Option PROTOTYPE :=
  let pdD := pd.getD i default
  if pdD.NonEssential then some p
  else if DistributionOK (FillBuckets NormalBuckets cluster i pdD
      (p.Mean.getD i 0) (lm.sqrt (p.Variance.ell.getD i 0))) then some p
  else
    let p := MakeDimRandom lm i p pdD
    let RandomBuckets := GetBuckets lm .D_random cluster.SampleCount Confidence
    if DistributionOK (FillBuckets RandomBuckets cluster i pdD
        (p.Mean.getD i 0) (p.Variance.ell.getD i 0)) then some p
    else
      let p := MakeDimUniform lm i p stats
      let UniformBuckets := GetBuckets lm .uniform cluster.SampleCount Confidence
      if DistributionOK (FillBuckets UniformBuckets cluster i pdD
          (p.Mean.getD i 0) (p.Variance.ell.getD i 0)) then some p
      else none

/-- `MakeMixedProto`. -/
def MakeMixedProto (lm : LIBM) (N : ℕ) (pd : List PARAM_DESC)
    (cluster : CLUSTER) (stats : STATISTICS) (NormalBuckets : BUCKETS)
    (Confidence : ℚ) : Option PROTOTYPE :=
  (List.range N).foldl
    (fun acc i => acc.bind fun p =>
      MMPStep lm pd cluster stats NormalBuckets Confidence p i)
    (some (NewMixedProto lm N cluster stats))

/-- `MakePrototype`. -/
def MakePrototype (lm : LIBM) (N : ℕ) (pd : List PARAM_DESC) (NumChar : ℤ)
    (cfg : CLUSTERCONFIG) (cluster : CLUSTER) : Option PROTOTYPE :=
  if MultipleCharSamples NumChar cluster cfg.MaxIllegal then none
  else
    let stats := ComputeStatistics lm N pd cluster
    match MakeDegenerateProto lm N cluster stats cfg.ProtoStyle
      ⌊cfg.MinSamples * (NumChar : ℚ)⌋ with
    | some p => some p
    | none =>
      if Independent lm pd N stats.CoVariance cfg.Independence then
        let bkts := GetBuckets lm .normal cluster.SampleCount cfg.Confidence
        match cfg.ProtoStyle with
        | .spherical => MakeSphericalProto lm N pd cluster stats bkts
        | .elliptical => MakeEllipticalProto lm N pd cluster stats bkts
        | .mixed => MakeMixedProto lm N pd cluster stats bkts cfg.Confidence
        | .automatic =>
          match MakeSphericalProto lm N pd cluster stats bkts with
          | some p => some p
          | none =>
            match MakeEllipticalProto lm N pd cluster stats bkts with
            | some p => some p
            | none => MakeMixedProto lm N pd cluster stats bkts cfg.Confidence
      else none

/-- The single error kind of the core. -/
inductive CLUSTERERROR where
  | ALREADYCLUSTERED
deriving DecidableEq

/-- `CLUSTERER`.  The kd-tree (whose code is not among the sources) is
embedded as the list of stored samples in insertion order. -/
structure CLUSTERER where
  SampleSize : ℕ
  ParamDesc : List PARAM_DESC
  NumberOfSamples : ℕ
  NumChar : ℤ
  Root : Option CLUSTER
  ProtoList : List PROTOTYPE
  KDTree : List SAMPLE
deriving DecidableEq

/-- `MakeClusterer`: copy the descriptors, filling in the derived
`Range`/`HalfRange`/`MidRange` fields. -/
def MakeClusterer (SampleSize : ℕ) (pd : List PARAM_DESC) : CLUSTERER :=
  { SampleSize := SampleSize
    ParamDesc := (List.range SampleSize).map fun i =>
      let p := pd.getD i default
      { Circular := p.Circular
        NonEssential := p.NonEssential
        Min := p.Min
        Max := p.Max
        Range := p.Max - p.Min
        HalfRange := (p.Max - p.Min) / 2
        MidRange := (p.Max + p.Min) / 2 }
    NumberOfSamples := 0
    NumChar := 0
    Root := none
    ProtoList := []
    KDTree := [] }

/-- `MakeSample`: fails with `ALREADYCLUSTERED` once the cluster tree
exists (`Root != NULL`); otherwise creates a fresh leaf sample and stores it
in the kd-tree.  The error case returns no modified clusterer, embedding
`DoError`'s abort. -/
def MakeSample (c : CLUSTERER) (Feature : List ℚ) (CharID : ℤ) :
    Except CLUSTERERROR (CLUSTERER × SAMPLE) :=
  match c.Root with
  | some _ => .error .ALREADYCLUSTERED
  | none =>
    let s : SAMPLE :=
      { Clustered := false
        Prototype := false
        SampleCount := 1
        Left := none
        Right := none
        CharID := CharID
        Mean := (List.range c.SampleSize).map fun i => Feature.getD i 0 }
    .ok ({ c with
      NumberOfSamples := c.NumberOfSamples + 1
      KDTree := c.KDTree ++ [s]
      NumChar := if CharID ≥ c.NumChar then CharID + 1 else c.NumChar }, s)

/-- Modelled from the spec: the squared Euclidean distance with per-dimension
circular correction used by the kd-tree search (`kdtree.c` is not among the
sources; spec §4.1). -/
def SquaredDistance (pd : List PARAM_DESC) (N : ℕ) (x y : List ℚ) : ℚ :=
  ((List.range N).map fun i =>
    let p := pd.getD i default
    let d := x.getD i 0 - y.getD i 0
    let d := if p.Circular ∧ |d| > p.HalfRange then p.Range - |d| else d
    d * d).sum

/-- All index pairs `i < j` below `len`. -/
def PairCandidates (len : ℕ) : List (ℕ × ℕ) :=
  (List.range len).flatMap fun i =>
    ((List.range len).filter fun j => i < j).map fun j => (i, j)

/-- Modelled from the spec: the pair of alive clusters at minimal distance,
i.e. the pair the heap of spec §4.2–4.3 would merge next (first such pair in
index order on ties). -/
def BestPair (pd : List PARAM_DESC) (N : ℕ) (cs : List CLUSTER) :
    Option (ℕ × ℕ) :=
  (((PairCandidates cs.length).map fun ij =>
      (ij, SquaredDistance pd N (cs.getD ij.1 default).Mean
        (cs.getD ij.2 default).Mean)).foldl
    (fun acc t =>
      match acc with
      | none => some t
      | some b => if t.2 < b.2 then some t else some b) none).map (·.1)

/-- Modelled from the spec: merge the nearest pair of clusters into a new
internal cluster (`MakeNewCluster`), removing both from the worklist — the
worklist removal embeds marking them `Clustered` and deleting them from the
kd-tree. -/
def MergeNearestPair (pd : List PARAM_DESC) (N : ℕ)
    (cs : List CLUSTER) : List CLUSTER :=
  match BestPair pd N cs with
  | none => cs
  | some (i, j) =>
    MakeNewCluster pd N (cs.getD i default) (cs.getD j default) ::
      (cs.eraseIdx j).eraseIdx i

/-- Modelled from the spec: the merge loop of `CreateClusterTree` (§4.3).
The fuel bounds the number of merges; each merge reduces the worklist by
one, so the initial length is always enough fuel, and the fuel-exhaustion
branch is unreachable for the call in `CreateClusterTree`. -/
def ClusterTreeGo (pd : List PARAM_DESC) (N : ℕ) :
    ℕ → List CLUSTER → Option CLUSTER
  | _, [] => none
  | _, [c] => some c
  | 0, c :: _ :: _ => some c
  | fuel + 1, a :: b :: rest =>
    ClusterTreeGo pd N fuel (MergeNearestPair pd N (a :: b :: rest))

/-- `CreateClusterTree`: build the cluster tree from the stored samples,
set it as the root and free the kd-tree. -/
def CreateClusterTree (c : CLUSTERER) : CLUSTERER :=
  let clusters := c.KDTree.map SAMPLE.toCluster
  { c with
    Root := ClusterTreeGo c.ParamDesc c.SampleSize clusters.length clusters
    KDTree := [] }

/-- Stack loop of `ComputePrototypes`: pop a cluster; a successful
`MakePrototype` is pushed onto the prototype list, otherwise the children
are pushed (left on top).  A leaf that fails has no children to push (the
source would dereference its null children).  The fuel bounds the number of
iterations; the total node count — which strictly decreases across an
iteration — is always enough. -/
def CPLoop (lm : LIBM) (N : ℕ) (pd : List PARAM_DESC) (NumChar : ℤ)
    (cfg : CLUSTERCONFIG) :
    ℕ → List CLUSTER → List PROTOTYPE → List PROTOTYPE
  | 0, _, acc => acc
  | _, [], acc => acc
  | fuel + 1, cl :: rest, acc =>
    match MakePrototype lm N pd NumChar cfg cl with
    | some p => CPLoop lm N pd NumChar cfg fuel rest (p :: acc)
    | none =>
      match cl with
      | .leaf _ _ => CPLoop lm N pd NumChar cfg fuel rest acc
      | .node _ _ l r => CPLoop lm N pd NumChar cfg fuel (l :: r :: rest) acc

/-- `ComputePrototypes`. -/
def ComputePrototypes (lm : LIBM) (c : CLUSTERER) (cfg : CLUSTERCONFIG) :
    List PROTOTYPE :=
  match c.Root with
  | none => []
  | some root => CPLoop lm c.SampleSize c.ParamDesc c.NumChar cfg
      (root.size * root.size + root.size) [root] []

/-- `ClusterSamples`: build the cluster tree only if it does not exist yet,
then rebuild the prototype list from it. -/
def ClusterSamples (lm : LIBM) (c : CLUSTERER) (cfg : CLUSTERCONFIG) :
    CLUSTERER × List PROTOTYPE :=
  let c := if c.Root = none then CreateClusterTree c else c
  let protos := ComputePrototypes lm c cfg
  ({ c with ProtoList := protos }, protos)

/-- The `(style, mean, variance)` observation of a prototype. -/
def ProtoTuple (p : PROTOTYPE) : PROTOSTYLE × List ℚ × FLOATUNION :=
  (p.Style, p.Mean, p.Variance)

/-- Concrete five-sample cluster tree (samples on the diagonal of a
two-dimensional space, distinct char ids) used to instantiate witnesses. -/
def wTree5 : CLUSTER :=
  .node 5 [2, 2]
    (.node 4 [0, 0]
      (.node 3 [0, 0]
        (.node 2 [0, 0] (.leaf 0 [0, 0]) (.leaf 1 [1, 1]))
        (.leaf 2 [2, 2]))
      (.leaf 3 [3, 3]))
    (.leaf 4 [4, 4])

/-- Concrete two-sample cluster tree (perfectly correlated two-dimensional
samples, distinct char ids) used to instantiate witnesses. -/
def wTree2 : CLUSTER :=
  .node 2 [1, 1] (.leaf 0 [0, 0]) (.leaf 1 [2, 2])

/-- Concrete two-dimensional descriptor list (both dimensions essential and
non-circular) used to instantiate witnesses. -/
def wPD2 : List PARAM_DESC :=
  [⟨false, false, 0, 4, 4, 2, 2⟩, ⟨false, false, 0, 4, 4, 2, 2⟩]

/-!  Theorems.  First some list bookkeeping helpers, then the faithfulness
of the `NextSample` traversal, then the claims. -/

theorem getD_range_map {α : Type} (f : ℕ → α) (n i : ℕ) (d : α) (h : i < n) :
    ((List.range n).map f).getD i d = f i := by
  rw [List.getD_eq_getElem?_getD, List.getElem?_map, List.getElem?_range h]
  rfl

theorem listGetDSetEq {α : Type} (l : List α) (i : ℕ) (v d : α)
    (h : i < l.length) : (l.set i v).getD i d = v := by
  induction l generalizing i with
  | nil => simp at h
  | cons a t ih =>
    cases i with
    | zero => rfl
    | succ i =>
      simp only [List.length_cons, Nat.add_lt_add_iff_right] at h
      simpa [List.set, List.getD] using ih i h

theorem listGetDSetNe {α : Type} (l : List α) (i b : ℕ) (v d : α)
    (h : i ≠ b) : (l.set i v).getD b d = l.getD b d := by
  induction l generalizing i b with
  | nil => rfl
  | cons a t ih =>
    cases i with
    | zero =>
      cases b with
      | zero => exact absurd rfl h
      | succ b => rfl
    | succ i =>
      cases b with
      | zero => rfl
      | succ b =>
        simpa [List.set, List.getD] using ih i b (fun hc => h (by omega))

theorem mapSetComm {α β : Type} (f : α → β) (l : List α) (i : ℕ) (v : α) :
    (l.map f).set i (f v) = (l.set i v).map f := by
  induction l generalizing i with
  | nil => rfl
  | cons a t ih =>
    cases i with
    | zero => rfl
    | succ i =>
      show f a :: (t.map f).set i (f v) = f a :: (t.set i v).map f
      rw [ih]

theorem getDMapEncode (l : List CHARSTATE) (k : ℕ) :
    (l.map encodeFlag).getD k 0 = encodeFlag (l.getD k .unseen) := by
  induction l generalizing k with
  | nil => rfl
  | cons a t ih =>
    cases k with
    | zero => rfl
    | succ k => simpa [List.getD] using ih k

theorem sumSetIncr (l : List ℕ) (i : ℕ) (h : i < l.length) :
    (l.set i (l.getD i 0 + 1)).sum = l.sum + 1 := by
  induction l generalizing i with
  | nil => simp at h
  | cons a t ih =>
    cases i with
    | zero =>
      show ((a + 1) :: t).sum = (a :: t).sum + 1
      simp [List.sum_cons]
      omega
    | succ i =>
      have h' : i < t.length := by simpa using h
      have ht := ih i h'
      show (a :: t.set i (t.getD i 0 + 1)).sum = (a :: t).sum + 1
      simp only [List.sum_cons, ht]
      omega

theorem NextSampleDescend_spec (c : CLUSTER) (st : List CLUSTER) :
    (NextSampleDescend c st).1 :: stackLeaves (NextSampleDescend c st).2 =
      stackLeaves (c :: st) := by
  induction c generalizing st with
  | leaf i m => simp [NextSampleDescend, stackLeaves, CLUSTER.leaves]
  | node n m l r ihl ihr =>
    have := ihl (r :: st)
    simp only [NextSampleDescend]
    rw [this]
    simp [stackLeaves, CLUSTER.leaves, List.append_assoc]

theorem leaves_ne_nil (c : CLUSTER) : c.leaves ≠ [] := by
  induction c with
  | leaf i m => simp [CLUSTER.leaves]
  | node n m l r ihl ihr => simp [CLUSTER.leaves, ihl]

theorem leaves_length_le_size (c : CLUSTER) : c.leaves.length ≤ c.size := by
  induction c with
  | leaf i m => simp [CLUSTER.leaves, CLUSTER.size]
  | node n m l r ihl ihr =>
    simp only [CLUSTER.leaves, CLUSTER.size, List.length_append]
    omega

theorem SampleSearchGo_eq (fuel : ℕ) :
    ∀ st : List CLUSTER, (stackLeaves st).length ≤ fuel →
      SampleSearchGo fuel st = stackLeaves st := by
  induction fuel with
  | zero =>
    intro st h
    cases st with
    | nil => rfl
    | cons c rest =>
      exfalso
      have h1 : c.leaves ≠ [] := leaves_ne_nil c
      have : (stackLeaves (c :: rest)).length ≥ 1 := by
        simp only [stackLeaves, List.length_append]
        cases hc : c.leaves with
        | nil => exact absurd hc h1
        | cons a t => simp only [List.length_cons]; omega
      omega
  | succ fuel ih =>
    intro st h
    cases st with
    | nil => rfl
    | cons c rest =>
      have hd := NextSampleDescend_spec c rest
      simp only [SampleSearchGo, NextSample]
      rw [← hd]
      congr 1
      apply ih
      have : ((NextSampleDescend c rest).1 :: stackLeaves (NextSampleDescend c rest).2).length
          = (stackLeaves (c :: rest)).length := by rw [hd]
      simp only [List.length_cons] at this
      omega

theorem SampleSearchAll_eq_leaves (c : CLUSTER) :
    SampleSearchAll c = c.leaves := by
  have h1 : stackLeaves [c] = c.leaves := by simp [stackLeaves]
  have h2 : (stackLeaves [c]).length ≤ c.size := by
    rw [h1]; exact leaves_length_le_size c
  rw [SampleSearchAll, InitSampleSearch, SampleSearchGo_eq c.size [c] h2, h1]

set_option maxHeartbeats 1000000

set_option maxRecDepth 8000

/-- C1: For every internal cluster created by `MakeNewCluster`, the sample
count is the sum of the children's counts and each mean coordinate is the
`MergeMean` of the children's coordinates; for a non-circular dimension
this is the plain sample-count-weighted average, for a circular dimension it
is the weighted average with the farther mean shifted by one range
(`CircularWeightedAverage`), and — provided both children's means lie in
`[Min, Max)` — the circular result again satisfies `Min ≤ mean < Max`. -/
theorem MergeClusterInvariants (pdl : List PARAM_DESC) (Nd : ℕ)
    (l r : CLUSTER) (p : PARAM_DESC) (n1 n2 : ℕ) (m1 m2 : ℚ)
    (hn1 : 1 ≤ n1) (hn2 : 1 ≤ n2)
    (hR : p.Range = p.Max - p.Min) (hH : p.HalfRange = p.Range / 2)
    (hm1l : p.Min ≤ m1) (hm1u : m1 < p.Max)
    (hm2l : p.Min ≤ m2) (hm2u : m2 < p.Max) :
    (MakeNewCluster pdl Nd l r).SampleCount = l.SampleCount + r.SampleCount ∧
    (∀ i, i < Nd → (MakeNewCluster pdl Nd l r).Mean.getD i 0 =
      MergeMean (pdl.getD i default) l.SampleCount r.SampleCount
        (l.Mean.getD i 0) (r.Mean.getD i 0)) ∧
    (p.Circular = false →
      MergeMean p n1 n2 m1 m2 =
        ((n1 : ℚ) * m1 + (n2 : ℚ) * m2) / ((n1 : ℚ) + (n2 : ℚ))) ∧
    (p.Circular = true →
      MergeMean p n1 n2 m1 m2 = CircularWeightedAverage p n1 n2 m1 m2) ∧
    (p.Circular = true →
      p.Min ≤ MergeMean p n1 n2 m1 m2 ∧ MergeMean p n1 n2 m1 m2 < p.Max) := by
  have hq1 : (1 : ℚ) ≤ (n1 : ℚ) := by exact_mod_cast hn1
  have hq2 : (1 : ℚ) ≤ (n2 : ℚ) := by exact_mod_cast hn2
  have hn : (0 : ℚ) < (n1 : ℚ) + (n2 : ℚ) := by linarith
  have hMM : p.Min < p.Max := lt_of_le_of_lt hm1l hm1u
  have hRpos : 0 < p.Range := by rw [hR]; linarith
  have hMaxEq : p.Max = p.Min + p.Range := by rw [hR]; ring
  have e1 : (n1 : ℚ) * p.Min ≤ (n1 : ℚ) * m1 :=
    mul_le_mul_of_nonneg_left hm1l (by linarith)
  have e2 : (n2 : ℚ) * p.Min ≤ (n2 : ℚ) * m2 :=
    mul_le_mul_of_nonneg_left hm2l (by linarith)
  have key : p.Circular = true →
      (MergeMean p n1 n2 m1 m2 = CircularWeightedAverage p n1 n2 m1 m2 ∧
       p.Min ≤ MergeMean p n1 n2 m1 m2 ∧ MergeMean p n1 n2 m1 m2 < p.Max) := by
    intro hcirc
    by_cases hc1 : m2 - m1 > p.HalfRange
    · have haLe : ((n1 : ℚ) * m1 + (n2 : ℚ) * (m2 - p.Range)) /
          ((n1 : ℚ) + (n2 : ℚ)) ≤ m1 := by
        rw [div_le_iff₀ hn]
        have h1 : m2 - p.Range < m1 := by
          have := hm2u
          rw [hMaxEq] at this
          linarith
        nlinarith [mul_le_mul_of_nonneg_left (le_of_lt h1)
          (by linarith : (0 : ℚ) ≤ (n2 : ℚ))]
      have haGe : p.Min - p.Range ≤ ((n1 : ℚ) * m1 + (n2 : ℚ) * (m2 - p.Range)) /
          ((n1 : ℚ) + (n2 : ℚ)) := by
        rw [le_div_iff₀ hn]
        have e3 : (0 : ℚ) ≤ (n1 : ℚ) * p.Range :=
          mul_nonneg (by linarith) (le_of_lt hRpos)
        nlinarith [e1, e2, e3]
      have hmm : MergeMean p n1 n2 m1 m2 =
          (if ((n1 : ℚ) * m1 + (n2 : ℚ) * (m2 - p.Range)) /
              ((n1 : ℚ) + (n2 : ℚ)) < p.Min then
            ((n1 : ℚ) * m1 + (n2 : ℚ) * (m2 - p.Range)) /
              ((n1 : ℚ) + (n2 : ℚ)) + p.Range
          else ((n1 : ℚ) * m1 + (n2 : ℚ) * (m2 - p.Range)) /
            ((n1 : ℚ) + (n2 : ℚ))) := by
        simp only [MergeMean, hcirc, if_true]
        rw [if_pos hc1]
      have hcwa : CircularWeightedAverage p n1 n2 m1 m2 =
          (if ((n1 : ℚ) * m1 + (n2 : ℚ) * (m2 - p.Range)) /
              ((n1 : ℚ) + (n2 : ℚ)) < p.Min then
            ((n1 : ℚ) * m1 + (n2 : ℚ) * (m2 - p.Range)) /
              ((n1 : ℚ) + (n2 : ℚ)) + p.Range
          else ((n1 : ℚ) * m1 + (n2 : ℚ) * (m2 - p.Range)) /
            ((n1 : ℚ) + (n2 : ℚ))) := by
        simp only [CircularWeightedAverage]
        rw [if_pos hc1]
      rw [hmm, hcwa]
      refine ⟨rfl, ?_, ?_⟩ <;> by_cases han :
          ((n1 : ℚ) * m1 + (n2 : ℚ) * (m2 - p.Range)) /
            ((n1 : ℚ) + (n2 : ℚ)) < p.Min
      · rw [if_pos han]; linarith
      · rw [if_neg han]; linarith
      · rw [if_pos han]; rw [hMaxEq]; linarith
      · rw [if_neg han]; linarith
    · by_cases hc2 : m1 - m2 > p.HalfRange
      · have haLe : ((n1 : ℚ) * (m1 - p.Range) + (n2 : ℚ) * m2) /
            ((n1 : ℚ) + (n2 : ℚ)) ≤ m2 := by
          rw [div_le_iff₀ hn]
          have h1 : m1 - p.Range < m2 := by
            have := hm1u
            rw [hMaxEq] at this
            linarith
          nlinarith [mul_le_mul_of_nonneg_left (le_of_lt h1)
            (by linarith : (0 : ℚ) ≤ (n1 : ℚ))]
        have haGe : p.Min - p.Range ≤
            ((n1 : ℚ) * (m1 - p.Range) + (n2 : ℚ) * m2) /
              ((n1 : ℚ) + (n2 : ℚ)) := by
          rw [le_div_iff₀ hn]
          have e3 : (0 : ℚ) ≤ (n2 : ℚ) * p.Range :=
            mul_nonneg (by linarith) (le_of_lt hRpos)
          nlinarith [e1, e2, e3]
        have hmm : MergeMean p n1 n2 m1 m2 =
            (if ((n1 : ℚ) * (m1 - p.Range) + (n2 : ℚ) * m2) /
                ((n1 : ℚ) + (n2 : ℚ)) < p.Min then
              ((n1 : ℚ) * (m1 - p.Range) + (n2 : ℚ) * m2) /
                ((n1 : ℚ) + (n2 : ℚ)) + p.Range
            else ((n1 : ℚ) * (m1 - p.Range) + (n2 : ℚ) * m2) /
              ((n1 : ℚ) + (n2 : ℚ))) := by
          simp only [MergeMean, hcirc, if_true]
          rw [if_neg hc1, if_pos hc2]
        have hcwa : CircularWeightedAverage p n1 n2 m1 m2 =
            (if ((n1 : ℚ) * (m1 - p.Range) + (n2 : ℚ) * m2) /
                ((n1 : ℚ) + (n2 : ℚ)) < p.Min then
              ((n1 : ℚ) * (m1 - p.Range) + (n2 : ℚ) * m2) /
                ((n1 : ℚ) + (n2 : ℚ)) + p.Range
            else ((n1 : ℚ) * (m1 - p.Range) + (n2 : ℚ) * m2) /
              ((n1 : ℚ) + (n2 : ℚ))) := by
          simp only [CircularWeightedAverage]
          rw [if_neg hc1, if_pos hc2]
        rw [hmm, hcwa]
        refine ⟨rfl, ?_, ?_⟩ <;> by_cases han :
            ((n1 : ℚ) * (m1 - p.Range) + (n2 : ℚ) * m2) /
              ((n1 : ℚ) + (n2 : ℚ)) < p.Min
        · rw [if_pos han]; linarith
        · rw [if_neg han]; linarith
        · rw [if_pos han]; rw [hMaxEq]; linarith
        · rw [if_neg han]; linarith
      · have haGe : p.Min ≤ ((n1 : ℚ) * m1 + (n2 : ℚ) * m2) /
            ((n1 : ℚ) + (n2 : ℚ)) := by
          rw [le_div_iff₀ hn]
          nlinarith [e1, e2]
        have haLt : ((n1 : ℚ) * m1 + (n2 : ℚ) * m2) /
            ((n1 : ℚ) + (n2 : ℚ)) < p.Max := by
          rw [div_lt_iff₀ hn]
          have s1 : (n1 : ℚ) * m1 < (n1 : ℚ) * p.Max :=
            mul_lt_mul_of_pos_left hm1u (by linarith)
          have s2 : (n2 : ℚ) * m2 < (n2 : ℚ) * p.Max :=
            mul_lt_mul_of_pos_left hm2u (by linarith)
          nlinarith [s1, s2]
        have hmm : MergeMean p n1 n2 m1 m2 =
            ((n1 : ℚ) * m1 + (n2 : ℚ) * m2) / ((n1 : ℚ) + (n2 : ℚ)) := by
          simp only [MergeMean, hcirc, if_true]
          rw [if_neg hc1, if_neg hc2]
        have hcwa : CircularWeightedAverage p n1 n2 m1 m2 =
            ((n1 : ℚ) * m1 + (n2 : ℚ) * m2) / ((n1 : ℚ) + (n2 : ℚ)) := by
          simp only [CircularWeightedAverage]
          rw [if_neg hc1, if_neg hc2, if_neg (not_lt.mpr haGe)]
        rw [hmm, hcwa]
        exact ⟨rfl, haGe, haLt⟩
  refine ⟨rfl, ?_, ?_, fun h => (key h).1, fun h => (key h).2⟩
  · intro i hi
    exact getD_range_map _ Nd i 0 hi
  · intro hflat
    simp only [MergeMean, hflat]
    rfl

/-- Witness for C1 at a concrete circular dimension (range `[0, 360)`,
means `359` and `2`, counts `4` and `1`). -/
theorem MergeClusterInvariantsWitness :
    (1 ≤ 4 ∧ 1 ≤ 1 ∧
      (⟨true, false, 0, 360, 360, 180, 180⟩ : PARAM_DESC).Range =
        (⟨true, false, 0, 360, 360, 180, 180⟩ : PARAM_DESC).Max -
        (⟨true, false, 0, 360, 360, 180, 180⟩ : PARAM_DESC).Min ∧
      (0 : ℚ) ≤ 359 ∧ (359 : ℚ) < 360 ∧ (0 : ℚ) ≤ 2 ∧ (2 : ℚ) < 360) ∧
    ((⟨true, false, 0, 360, 360, 180, 180⟩ : PARAM_DESC).Circular = true →
      (0 : ℚ) ≤ MergeMean ⟨true, false, 0, 360, 360, 180, 180⟩ 4 1 359 2 ∧
      MergeMean ⟨true, false, 0, 360, 360, 180, 180⟩ 4 1 359 2 < 360) := by
  refine ⟨⟨by norm_num, by norm_num, by norm_num, by norm_num, by norm_num,
    by norm_num, by norm_num⟩, ?_⟩
  exact (MergeClusterInvariants [] 0 default default
    ⟨true, false, 0, 360, 360, 180, 180⟩ 4 1 359 2
    (by norm_num) (by norm_num) (by norm_num) (by norm_num)
    (by norm_num) (by norm_num) (by norm_num) (by norm_num)).2.2.2.2

theorem ClusterTreeGo_isSome (pd : List PARAM_DESC) (N : ℕ) :
    ∀ (fuel : ℕ) (cs : List CLUSTER), cs ≠ [] →
      (ClusterTreeGo pd N fuel cs).isSome := by
  intro fuel
  induction fuel with
  | zero =>
    intro cs h
    match cs with
    | [] => exact absurd rfl h
    | [c] => simp [ClusterTreeGo]
    | a :: b :: t => simp [ClusterTreeGo]
  | succ fuel ih =>
    intro cs h
    match cs with
    | [] => exact absurd rfl h
    | [c] => simp [ClusterTreeGo]
    | a :: b :: t =>
      show (ClusterTreeGo pd N fuel (MergeNearestPair pd N (a :: b :: t))).isSome
      apply ih
      cases hbp : BestPair pd N (a :: b :: t) with
      | none => simp [MergeNearestPair, hbp]
      | some ij => simp [MergeNearestPair, hbp]

theorem ClusterSamples_root_isSome (lm : LIBM) (c : CLUSTERER)
    (cfg : CLUSTERCONFIG) (h : c.KDTree ≠ [] ∨ c.Root ≠ none) :
    (ClusterSamples lm c cfg).1.Root.isSome := by
  have hgoal : (ClusterSamples lm c cfg).1.Root =
      (if c.Root = none then CreateClusterTree c else c).Root := rfl
  rw [hgoal]
  by_cases hroot : c.Root = none
  · have hkd : c.KDTree ≠ [] := by
      rcases h with h1 | h2
      · exact h1
      · exact absurd hroot h2
    rw [if_pos hroot]
    show (ClusterTreeGo c.ParamDesc c.SampleSize
      (c.KDTree.map SAMPLE.toCluster).length (c.KDTree.map SAMPLE.toCluster)).isSome
    apply ClusterTreeGo_isSome
    simpa using hkd
  · rw [if_neg hroot]
    cases hx : c.Root with
    | none => exact absurd hx hroot
    | some t => simp

theorem ComputePrototypes_protoList_irrelevant (lm : LIBM) (c : CLUSTERER)
    (pl : List PROTOTYPE) (cfg : CLUSTERCONFIG) :
    ComputePrototypes lm { c with ProtoList := pl } cfg =
      ComputePrototypes lm c cfg := rfl

theorem ClusterSamples_of_root_some (lm : LIBM) (c : CLUSTERER)
    (cfg : CLUSTERCONFIG) (t : CLUSTER) (h : c.Root = some t) :
    ClusterSamples lm c cfg =
      ({ c with ProtoList := ComputePrototypes lm c cfg },
        ComputePrototypes lm c cfg) := by
  have hne : ¬ c.Root = none := by rw [h]; simp
  simp only [ClusterSamples, if_neg hne]

/-- C2: `MakeSample` called before any clustering (`Root = NULL`) returns a
fresh leaf sample — count 1, no children, `Clustered = FALSE` — and stores
it; called once a cluster tree exists, and in particular after any
`ClusterSamples` call on a clusterer holding at least one sample, it fails
with `ALREADYCLUSTERED` (the `Except.error` result carries no modified
clusterer, embedding `DoError`'s abort, so the clusterer is unchanged). -/
theorem MakeSampleLifecycle (lm : LIBM) (c : CLUSTERER) (Feature : List ℚ)
    (CharID : ℤ) (cfg : CLUSTERCONFIG) :
    (c.Root = none → ∃ c2 s, MakeSample c Feature CharID = .ok (c2, s) ∧
      s.SampleCount = 1 ∧ s.Left = none ∧ s.Right = none ∧
      s.Clustered = false ∧ s.Prototype = false ∧ s.CharID = CharID ∧
      c2.NumberOfSamples = c.NumberOfSamples + 1 ∧
      c2.KDTree = c.KDTree ++ [s]) ∧
    (c.Root ≠ none → MakeSample c Feature CharID = .error .ALREADYCLUSTERED) ∧
    ((c.KDTree ≠ [] ∨ c.Root ≠ none) →
      MakeSample (ClusterSamples lm c cfg).1 Feature CharID =
        .error .ALREADYCLUSTERED) := by
  refine ⟨?_, ?_, ?_⟩
  · intro h
    simp only [MakeSample, h]
    exact ⟨_, _, rfl, rfl, rfl, rfl, rfl, rfl, rfl, rfl, rfl⟩
  · intro h
    cases hx : c.Root with
    | none => exact absurd hx h
    | some t => simp only [MakeSample, hx]
  · intro h
    have hsome := ClusterSamples_root_isSome lm c cfg h
    obtain ⟨t, ht⟩ := Option.isSome_iff_exists.mp hsome
    simp only [MakeSample, ht]

/-- Witness for C2: a one-sample clusterer accepts a sample before
clustering and rejects one after `ClusterSamples`; a clusterer with a root
rejects immediately. -/
theorem MakeSampleLifecycleWitness :
    ((⟨1, [default], 1, 1, none, [], [⟨false, false, 1, none, none, 0, [0]⟩]⟩ :
        CLUSTERER).Root = none ∧
      (∃ c2 s, MakeSample
          ⟨1, [default], 1, 1, none, [], [⟨false, false, 1, none, none, 0, [0]⟩]⟩
          [5] 1 = .ok (c2, s) ∧
        s.SampleCount = 1 ∧ s.Left = none ∧ s.Right = none ∧
        s.Clustered = false ∧ s.Prototype = false ∧ s.CharID = 1 ∧
        c2.NumberOfSamples = 2 ∧
        c2.KDTree = [⟨false, false, 1, none, none, 0, [0]⟩] ++ [s])) ∧
    ((⟨1, [default], 1, 1, none, [], [⟨false, false, 1, none, none, 0, [0]⟩]⟩ :
        CLUSTERER).KDTree ≠ [] ∧
      MakeSample (ClusterSamples lm0
          ⟨1, [default], 1, 1, none, [], [⟨false, false, 1, none, none, 0, [0]⟩]⟩
          ⟨.spherical, 0, 0, 0, 0⟩).1 [5] 1 = .error .ALREADYCLUSTERED) := by
  refine ⟨⟨rfl, ?_⟩, ⟨by simp, ?_⟩⟩
  · exact (MakeSampleLifecycle lm0
      ⟨1, [default], 1, 1, none, [], [⟨false, false, 1, none, none, 0, [0]⟩]⟩
      [5] 1 ⟨.spherical, 0, 0, 0, 0⟩).1 rfl
  · exact (MakeSampleLifecycle lm0
      ⟨1, [default], 1, 1, none, [], [⟨false, false, 1, none, none, 0, [0]⟩]⟩
      [5] 1 ⟨.spherical, 0, 0, 0, 0⟩).2.2 (Or.inl (by simp))

/-- C3: a second `ClusterSamples` call with the same config does not rebuild
the cluster tree (the root is unchanged) and returns a prototype list equal
to the first call's — in particular with equal `(style, mean, variance)`
tuples. -/
theorem ClusterSamplesIdempotent (lm : LIBM) (c : CLUSTERER)
    (cfg : CLUSTERCONFIG) (h : c.KDTree ≠ [] ∨ c.Root ≠ none) :
    (ClusterSamples lm (ClusterSamples lm c cfg).1 cfg).1.Root =
      (ClusterSamples lm c cfg).1.Root ∧
    (ClusterSamples lm (ClusterSamples lm c cfg).1 cfg).2 =
      (ClusterSamples lm c cfg).2 ∧
    (ClusterSamples lm (ClusterSamples lm c cfg).1 cfg).2.map ProtoTuple =
      (ClusterSamples lm c cfg).2.map ProtoTuple := by
  have hsome := ClusterSamples_root_isSome lm c cfg h
  obtain ⟨t, ht⟩ := Option.isSome_iff_exists.mp hsome
  have hsecond := ClusterSamples_of_root_some lm (ClusterSamples lm c cfg).1 cfg t ht
  have hfirst : (ClusterSamples lm c cfg).1 =
      { (if c.Root = none then CreateClusterTree c else c) with
        ProtoList := ComputePrototypes lm
          (if c.Root = none then CreateClusterTree c else c) cfg } := rfl
  have hsnd : (ClusterSamples lm c cfg).2 =
      ComputePrototypes lm
        (if c.Root = none then CreateClusterTree c else c) cfg := rfl
  have hP2 : ComputePrototypes lm (ClusterSamples lm c cfg).1 cfg =
      (ClusterSamples lm c cfg).2 := by
    rw [hfirst, ComputePrototypes_protoList_irrelevant, hsnd]
  refine ⟨?_, ?_, ?_⟩
  · rw [hsecond]
  · rw [hsecond]
    exact hP2
  · rw [hsecond]
    rw [hP2]

/-- Witness for C3: a two-sample clusterer, clustered twice with identical
config. -/
theorem ClusterSamplesIdempotentWitness :
    ((⟨1, [default], 2, 2, none, [],
        [⟨false, false, 1, none, none, 0, [0]⟩,
         ⟨false, false, 1, none, none, 1, [1]⟩]⟩ : CLUSTERER).KDTree ≠ [] ∨
      (⟨1, [default], 2, 2, none, [],
        [⟨false, false, 1, none, none, 0, [0]⟩,
         ⟨false, false, 1, none, none, 1, [1]⟩]⟩ : CLUSTERER).Root ≠ none) ∧
    (ClusterSamples lm0 (ClusterSamples lm0
        ⟨1, [default], 2, 2, none, [],
          [⟨false, false, 1, none, none, 0, [0]⟩,
           ⟨false, false, 1, none, none, 1, [1]⟩]⟩
        ⟨.spherical, 0, 0, 0, 0⟩).1 ⟨.spherical, 0, 0, 0, 0⟩).2.map ProtoTuple =
      (ClusterSamples lm0
        ⟨1, [default], 2, 2, none, [],
          [⟨false, false, 1, none, none, 0, [0]⟩,
           ⟨false, false, 1, none, none, 1, [1]⟩]⟩
        ⟨.spherical, 0, 0, 0, 0⟩).2.map ProtoTuple := by
  refine ⟨Or.inl (by simp), ?_⟩
  exact (ClusterSamplesIdempotent lm0
    ⟨1, [default], 2, 2, none, [],
      [⟨false, false, 1, none, none, 0, [0]⟩,
       ⟨false, false, 1, none, none, 1, [1]⟩]⟩
    ⟨.spherical, 0, 0, 0, 0⟩ (Or.inl (by simp))).2.2

theorem MCSLoop_eq_spec (MaxIllegal : ℚ) :
    ∀ (ss : List CLUSTER) (sflags : List CHARSTATE) (ncc nic : ℕ),
      MCSLoop MaxIllegal ss (sflags.map encodeFlag) ncc nic =
        MCSSpecLoop MaxIllegal ss sflags ncc nic := by
  intro ss
  induction ss with
  | nil => intro sflags ncc nic; rfl
  | cons s rest ih =>
    intro sflags ncc nic
    simp only [MCSLoop, MCSSpecLoop, getDMapEncode]
    cases hflag : sflags.getD s.CharID.toNat .unseen with
    | unseen =>
      show MCSLoop MaxIllegal rest ((sflags.map encodeFlag).set s.CharID.toNat 1)
          ncc nic =
        MCSSpecLoop MaxIllegal rest (sflags.set s.CharID.toNat .seen) ncc nic
      rw [show (1 : ℕ) = encodeFlag .seen from rfl, mapSetComm]
      exact ih _ ncc nic
    | seen =>
      show (if ((nic + 1 : ℕ) : ℚ) / ((ncc - 1 : ℕ) : ℚ) > MaxIllegal then true
          else MCSLoop MaxIllegal rest
            ((sflags.map encodeFlag).set s.CharID.toNat 2) (ncc - 1) (nic + 1)) =
        (if ((nic + 1 : ℕ) : ℚ) / ((ncc - 1 : ℕ) : ℚ) > MaxIllegal then true
          else MCSSpecLoop MaxIllegal rest
            (sflags.set s.CharID.toNat .illegal) (ncc - 1) (nic + 1))
      by_cases hcmp : ((nic + 1 : ℕ) : ℚ) / ((ncc - 1 : ℕ) : ℚ) > MaxIllegal
      · rw [if_pos hcmp, if_pos hcmp]
      · rw [if_neg hcmp, if_neg hcmp]
        rw [show (2 : ℕ) = encodeFlag .illegal from rfl, mapSetComm]
        exact ih _ (ncc - 1) (nic + 1)
    | illegal =>
      show (if ((nic : ℕ) : ℚ) / ((ncc - 1 : ℕ) : ℚ) > MaxIllegal then true
          else MCSLoop MaxIllegal rest (sflags.map encodeFlag) (ncc - 1) nic) =
        (if ((nic : ℕ) : ℚ) / ((ncc - 1 : ℕ) : ℚ) > MaxIllegal then true
          else MCSSpecLoop MaxIllegal rest sflags (ncc - 1) nic)
      by_cases hcmp : ((nic : ℕ) : ℚ) / ((ncc - 1 : ℕ) : ℚ) > MaxIllegal
      · rw [if_pos hcmp, if_pos hcmp]
      · rw [if_neg hcmp, if_neg hcmp]
        exact ih sflags (ncc - 1) nic

/-- C6: `MultipleCharSamples` computes exactly the walk described by the
specification: a per-char-id tri-state sized to `NumChar`, a running
denominator starting at the cluster's sample count and decremented on every
repeated id, an illegal counter incremented when a seen id repeats for the
first time, an immediate `true` as soon as
`illegal_count / char_count > max_illegal`, and `false` when the walk over
all leaf samples finishes. -/
theorem MultipleCharSamplesCharacterization (NumChar : ℤ) (cluster : CLUSTER)
    (MaxIllegal : ℚ) :
    MultipleCharSamples NumChar cluster MaxIllegal =
      MultipleCharSamplesSpec NumChar cluster MaxIllegal := by
  unfold MultipleCharSamples MultipleCharSamplesSpec
  rw [SampleSearchAll_eq_leaves]
  rw [show (List.replicate NumChar.toNat (0 : ℕ)) =
      (List.replicate NumChar.toNat CHARSTATE.unseen).map encodeFlag by
    simp [List.map_replicate, encodeFlag]]
  exact MCSLoop_eq_spec MaxIllegal cluster.leaves _ cluster.SampleCount 0

theorem getD_map_div (l : List ℚ) (c : ℚ) (k : ℕ) :
    (l.map (· / c)).getD k 0 = l.getD k 0 / c := by
  induction l generalizing k with
  | nil => simp [List.getD]
  | cons a t ih =>
    cases k with
    | zero => rfl
    | succ k => simpa [List.getD] using ih k

theorem getD_replicate {α : Type} (n k : ℕ) (a : α) :
    (List.replicate n a).getD k a = a := by
  induction n generalizing k with
  | zero => rfl
  | succ n ih =>
    cases k with
    | zero => rfl
    | succ k => exact ih k

theorem CSLoop_cov_length (N : ℕ) (pd : List PARAM_DESC) (cm : List ℚ) :
    ∀ (ss : List CLUSTER) (mn mx cov : List ℚ), cov.length = N * N →
      ((CSLoop N pd cm ss (mn, mx, cov)).2.2).length = N * N := by
  intro ss
  induction ss with
  | nil => intro mn mx cov h; exact h
  | cons s rest ih =>
    intro mn mx cov h
    exact ih _ _ _ (by simp)

theorem CSLoop_cov_getD (N : ℕ) (pd : List PARAM_DESC) (cm : List ℚ)
    (k : ℕ) (hk : k < N * N) :
    ∀ (ss : List CLUSTER) (mn mx cov : List ℚ), cov.length = N * N →
      ((CSLoop N pd cm ss (mn, mx, cov)).2.2).getD k 0 =
        cov.getD k 0 + (ss.map fun s =>
          (SampleDeviations N pd cm s).getD (k / N) 0 *
          (SampleDeviations N pd cm s).getD (k % N) 0).sum := by
  intro ss
  induction ss with
  | nil => intro mn mx cov h; simp [CSLoop]
  | cons s rest ih =>
    intro mn mx cov h
    have hstep := ih
      ((List.range N).map fun i => min (mn.getD i 0) ((SampleDeviations N pd cm s).getD i 0))
      ((List.range N).map fun i => max (mx.getD i 0) ((SampleDeviations N pd cm s).getD i 0))
      ((List.range (N * N)).map fun k' =>
        cov.getD k' 0 + (SampleDeviations N pd cm s).getD (k' / N) 0 *
          (SampleDeviations N pd cm s).getD (k' % N) 0)
      (by simp)
    show ((CSLoop N pd cm rest (_, _, _)).2.2).getD k 0 = _
    rw [hstep, getD_range_map _ (N * N) k 0 hk]
    simp only [List.map_cons, List.sum_cons]
    ring

theorem foldl_mul_prod (f : ℕ → ℚ) (n : ℕ) :
    ∀ a : ℚ, (List.range n).foldl (fun acc i => acc * f i) a =
      a * ∏ k ∈ Finset.range n, f k := by
  induction n with
  | zero => intro a; simp
  | succ n ih =>
    intro a
    rw [List.range_succ, List.foldl_append, ih, Finset.prod_range_succ]
    simp [mul_assoc]

/-- C7: `ComputeStatistics` divides the accumulated sum of outer products of
the circular-wrap-corrected deviations by `max 1 (SampleCount - 1)` — in
particular the divisor is `1`, not `0`, for a one-sample cluster — and sets
`AvgVariance` to the `N`-th root of the product of the `N` diagonal entries
of the resulting covariance matrix (i.e. its geometric mean, through the
`pow(x, 1/N)` oracle `LIBM.nroot`). -/
theorem ComputeStatisticsNormalization (lm : LIBM) (N : ℕ)
    (pd : List PARAM_DESC) (cluster : CLUSTER) (i j : ℕ)
    (hi : i < N) (hj : j < N) :
    (ComputeStatistics lm N pd cluster).CoVariance.getD (i * N + j) 0 =
      (cluster.leaves.map fun s =>
        Deviation (pd.getD i default) (s.Mean.getD i 0) (cluster.Mean.getD i 0) *
        Deviation (pd.getD j default) (s.Mean.getD j 0) (cluster.Mean.getD j 0)).sum /
        ((max 1 (cluster.SampleCount - 1) : ℕ) : ℚ) ∧
    (ComputeStatistics lm N pd cluster).AvgVariance =
      lm.nroot (∏ k ∈ Finset.range N,
        (ComputeStatistics lm N pd cluster).CoVariance.getD (k * (N + 1)) 0) N ∧
    (cluster.SampleCount = 1 → max 1 (cluster.SampleCount - 1) = 1) := by
  have hN : 0 < N := by omega
  have hk : i * N + j < N * N := by
    have h1 : (i + 1) * N ≤ N * N := Nat.mul_le_mul_right N hi
    have h2 : i * N + j < (i + 1) * N := by
      rw [Nat.succ_mul]
      omega
    omega
  have hdiv : (i * N + j) / N = i := by
    rw [show i * N + j = j + N * i by ring, Nat.add_mul_div_left j i hN,
      Nat.div_eq_of_lt hj, Nat.zero_add]
  have hmod : (i * N + j) % N = j := by
    rw [show i * N + j = j + N * i by ring, Nat.add_mul_mod_self_left]
    exact Nat.mod_eq_of_lt hj
  have hscab : ((if cluster.SampleCount > 1 then cluster.SampleCount - 1
      else 1 : ℕ) : ℚ) = ((max 1 (cluster.SampleCount - 1) : ℕ) : ℚ) := by
    congr 1
    rw [Nat.max_def]
    split_ifs <;> omega
  refine ⟨?_, ?_, fun h1 => by rw [h1]; decide⟩
  · show (((CSLoop N pd cluster.Mean (SampleSearchAll cluster)
        (List.replicate N 0, List.replicate N 0, List.replicate (N * N) 0)).2.2).map
        (· / ((if cluster.SampleCount > 1 then cluster.SampleCount - 1
          else 1 : ℕ) : ℚ))).getD (i * N + j) 0 = _
    rw [getD_map_div,
      CSLoop_cov_getD N pd cluster.Mean (i * N + j) hk (SampleSearchAll cluster)
        _ _ _ (by simp),
      getD_replicate, hscab, SampleSearchAll_eq_leaves]
    rw [zero_add, hdiv, hmod]
    congr 2
    apply List.map_congr_left
    intro s _
    unfold SampleDeviations
    rw [getD_range_map _ N i 0 hi, getD_range_map _ N j 0 hj]
  · have hav : (ComputeStatistics lm N pd cluster).AvgVariance =
        lm.nroot ((List.range N).foldl
          (fun a k => a * (ComputeStatistics lm N pd cluster).CoVariance.getD
            (k * (N + 1)) 0) 1) N := rfl
    rw [hav, foldl_mul_prod
      (fun k => (ComputeStatistics lm N pd cluster).CoVariance.getD (k * (N + 1)) 0) N 1,
      one_mul]

/-- Witness for C7: a single-sample cluster in one dimension; the divisor is
`max 1 0 = 1`. -/
theorem ComputeStatisticsNormalizationWitness :
    (0 < 1 ∧ (CLUSTER.leaf 0 [3]).SampleCount = 1) ∧
    (ComputeStatistics lm0 1 [default] (.leaf 0 [3])).CoVariance.getD 0 0 =
      ((CLUSTER.leaf 0 [3]).leaves.map fun s =>
        Deviation default (s.Mean.getD 0 0) ((CLUSTER.leaf 0 [3]).Mean.getD 0 0) *
        Deviation default (s.Mean.getD 0 0) ((CLUSTER.leaf 0 [3]).Mean.getD 0 0)).sum /
        ((max 1 ((CLUSTER.leaf 0 [3]).SampleCount - 1) : ℕ) : ℚ) := by
  refine ⟨⟨by norm_num, rfl⟩, ?_⟩
  have h := (ComputeStatisticsNormalization lm0 1 [default] (.leaf 0 [3]) 0 0
    (by norm_num) (by norm_num)).1
  simpa using h

theorem FillZeroLoop_count (B dim : ℕ) (mean : ℚ) (b : ℕ)
    (hB : 1 ≤ B) (hb : b < B) :
    ∀ (ss : List CLUSTER) (i : ℕ) (counts : List ℕ), i < B →
      counts.length = B →
      (FillZeroLoop B dim mean ss i counts).getD b 0 =
        counts.getD b 0 +
          (RoundRobinTargets B mean i (ss.map fun s => s.Mean.getD dim 0)).count b := by
  intro ss
  induction ss with
  | nil => intro i counts hi hlen; simp [FillZeroLoop, RoundRobinTargets]
  | cons s rest ih =>
    intro i counts hi hlen
    have htB : (if s.Mean.getD dim 0 > mean then B - 1
        else if s.Mean.getD dim 0 < mean then 0 else i) < B := by
      split_ifs <;> omega
    have hi' : (if i + 1 ≥ B then 0 else i + 1) < B := by
      split_ifs <;> omega
    show (FillZeroLoop B dim mean rest (if i + 1 ≥ B then 0 else i + 1)
        (counts.set (if s.Mean.getD dim 0 > mean then B - 1
          else if s.Mean.getD dim 0 < mean then 0 else i)
          (counts.getD (if s.Mean.getD dim 0 > mean then B - 1
            else if s.Mean.getD dim 0 < mean then 0 else i) 0 + 1))).getD b 0 = _
    rw [ih _ _ hi' (by rw [List.length_set]; exact hlen)]
    simp only [List.map_cons, RoundRobinTargets, List.count_cons]
    by_cases hte : (if s.Mean.getD dim 0 > mean then B - 1
        else if s.Mean.getD dim 0 < mean then 0 else i) = b
    · rw [hte, listGetDSetEq _ _ _ _ (by rw [hlen]; exact hb)]
      simp [List.count_cons]
      try omega
    · rw [listGetDSetNe _ _ _ _ _ hte]
      have hbe : ((if s.Mean.getD dim 0 > mean then B - 1
          else if s.Mean.getD dim 0 < mean then 0 else i) == b) = false := by
        rw [beq_eq_false_iff_ne]
        exact hte
      rw [hbe]
      simp

/-- C8: with zero standard deviation, `FillBuckets` counts each sample above
the mean in the last bucket, each sample below the mean in the first bucket,
and gives a sample exactly at the mean the current round-robin index, which
cycles through all `B` buckets, advancing after every sample
(`RoundRobinTargets` starting at index 0): every cell of the resulting
histogram holds exactly the number of samples assigned to it by that rule. -/
theorem FillBucketsZeroStdDev (bkts : BUCKETS) (cluster : CLUSTER)
    (dim : ℕ) (pdD : PARAM_DESC) (mean : ℚ) (b : ℕ)
    (hB : 1 ≤ bkts.NumberOfBuckets) (hb : b < bkts.NumberOfBuckets) :
    (FillBuckets bkts cluster dim pdD mean 0).Count.getD b 0 =
      (RoundRobinTargets bkts.NumberOfBuckets mean 0
        (cluster.leaves.map fun s => s.Mean.getD dim 0)).count b := by
  show (FillZeroLoop bkts.NumberOfBuckets dim mean (SampleSearchAll cluster) 0
      (List.replicate bkts.NumberOfBuckets 0)).getD b 0 = _
  rw [SampleSearchAll_eq_leaves,
    FillZeroLoop_count bkts.NumberOfBuckets dim mean b hB hb cluster.leaves 0
      (List.replicate bkts.NumberOfBuckets 0) (by omega) (by simp),
    getD_replicate, Nat.zero_add]

/-- Witness for C8: two buckets, three one-dimensional samples with values
below, at, and above the mean `5`. -/
theorem FillBucketsZeroStdDevWitness :
    (1 ≤ (⟨.uniform, 0, 0, 0, 2, [], [0, 0], []⟩ : BUCKETS).NumberOfBuckets ∧
      1 < (⟨.uniform, 0, 0, 0, 2, [], [0, 0], []⟩ : BUCKETS).NumberOfBuckets) ∧
    (FillBuckets ⟨.uniform, 0, 0, 0, 2, [], [0, 0], []⟩
        (.node 3 [5] (.node 2 [5] (.leaf 0 [4]) (.leaf 1 [5])) (.leaf 2 [6]))
        0 default 5 0).Count.getD 1 0 =
      (RoundRobinTargets 2 5 0
        (((CLUSTER.node 3 [5] (.node 2 [5] (.leaf 0 [4]) (.leaf 1 [5]))
          (.leaf 2 [6])).leaves).map fun s => s.Mean.getD 0 0)).count 1 := by
  refine ⟨⟨by norm_num, by norm_num⟩, ?_⟩
  exact FillBucketsZeroStdDev ⟨.uniform, 0, 0, 0, 2, [], [0, 0], []⟩
    (.node 3 [5] (.node 2 [5] (.leaf 0 [4]) (.leaf 1 [5])) (.leaf 2 [6]))
    0 default 5 1 (by norm_num) (by norm_num)

/-- C9: `StandardDeviation` on a mixed prototype returns the stored
per-dimension variance value itself — no square root — for uniform and
random dimensions (where, after `MakeDimUniform`/`MakeDimRandom`, that value
is the half extent `max MINVARIANCE ((Max - Min)/2)` resp. the half range),
while normal dimensions of mixed prototypes and spherical and elliptical
prototypes go through the `sqrt` oracle. -/
theorem StandardDeviationByDistribution (lm : LIBM) (p : PROTOTYPE)
    (dim i : ℕ) (pdD : PARAM_DESC) (stats : STATISTICS) :
    (p.Style = .mixed → (p.Distrib.getD []).getD dim .normal = .uniform →
      StandardDeviation lm p dim = p.Variance.ell.getD dim 0) ∧
    (p.Style = .mixed → (p.Distrib.getD []).getD dim .normal = .D_random →
      StandardDeviation lm p dim = p.Variance.ell.getD dim 0) ∧
    (p.Style = .mixed → (p.Distrib.getD []).getD dim .normal = .normal →
      StandardDeviation lm p dim = lm.sqrt (p.Variance.ell.getD dim 0)) ∧
    (p.Style = .spherical →
      StandardDeviation lm p dim = lm.sqrt p.Variance.sph) ∧
    (p.Style = .elliptical →
      StandardDeviation lm p dim = lm.sqrt (p.Variance.ell.getD dim 0)) ∧
    (p.Style = .mixed → i < (p.Distrib.getD []).length →
      i < p.Variance.ell.length →
      StandardDeviation lm (MakeDimRandom lm i p pdD) i = pdD.HalfRange) ∧
    (p.Style = .mixed → i < (p.Distrib.getD []).length →
      i < p.Variance.ell.length →
      StandardDeviation lm (MakeDimUniform lm i p stats) i =
        (if (stats.Max.getD i 0 - stats.Min.getD i 0) / 2 < MINVARIANCE
          then MINVARIANCE
          else (stats.Max.getD i 0 - stats.Min.getD i 0) / 2)) := by
  refine ⟨?_, ?_, ?_, ?_, ?_, ?_, ?_⟩
  · intro h1 h2
    simp only [StandardDeviation, h1, h2]
  · intro h1 h2
    simp only [StandardDeviation, h1, h2]
  · intro h1 h2
    simp only [StandardDeviation, h1, h2]
  · intro h1
    simp only [StandardDeviation, h1]
  · intro h1
    simp only [StandardDeviation, h1]
  · intro h1 hlen1 hlen2
    have hsty : (MakeDimRandom lm i p pdD).Style = PROTOSTYLE.mixed := h1
    have h3 : ((MakeDimRandom lm i p pdD).Distrib.getD []).getD i .normal =
        .D_random := by
      show ((p.Distrib.getD []).set i .D_random).getD i .normal = .D_random
      exact listGetDSetEq _ _ _ _ hlen1
    have h4 : (MakeDimRandom lm i p pdD).Variance.ell.getD i 0 =
        pdD.HalfRange := by
      show (p.Variance.ell.set i pdD.HalfRange).getD i 0 = pdD.HalfRange
      exact listGetDSetEq _ _ _ _ hlen2
    simp only [StandardDeviation, hsty, h3, h4]
  · intro h1 hlen1 hlen2
    have hsty : (MakeDimUniform lm i p stats).Style = PROTOSTYLE.mixed := h1
    have h3 : ((MakeDimUniform lm i p stats).Distrib.getD []).getD i .normal =
        .uniform := by
      show ((p.Distrib.getD []).set i .uniform).getD i .normal = .uniform
      exact listGetDSetEq _ _ _ _ hlen1
    have h4 : (MakeDimUniform lm i p stats).Variance.ell.getD i 0 =
        (if (stats.Max.getD i 0 - stats.Min.getD i 0) / 2 < MINVARIANCE
          then MINVARIANCE
          else (stats.Max.getD i 0 - stats.Min.getD i 0) / 2) := by
      show (p.Variance.ell.set i _).getD i 0 = _
      exact listGetDSetEq _ _ _ _ hlen2
    simp only [StandardDeviation, hsty, h3, h4]

/-- Witness for C9: a two-dimensional mixed prototype whose dimension 0 is
made random; its standard deviation is the stored half range `7`, untouched
by the (zero) sqrt oracle. -/
theorem StandardDeviationByDistributionWitness :
    ((⟨true, .mixed, 1, .leaf 0 [0, 0], [0, 0],
        some [.normal, .normal], .Elliptical [1, 1], .Elliptical [1, 1],
        .Elliptical [1, 1], 1, 0⟩ : PROTOTYPE).Style = .mixed ∧
      0 < ((⟨true, .mixed, 1, .leaf 0 [0, 0], [0, 0],
        some [.normal, .normal], .Elliptical [1, 1], .Elliptical [1, 1],
        .Elliptical [1, 1], 1, 0⟩ : PROTOTYPE).Distrib.getD []).length ∧
      0 < (⟨true, .mixed, 1, .leaf 0 [0, 0], [0, 0],
        some [.normal, .normal], .Elliptical [1, 1], .Elliptical [1, 1],
        .Elliptical [1, 1], 1, 0⟩ : PROTOTYPE).Variance.ell.length) ∧
    StandardDeviation lm0 (MakeDimRandom lm0 0
      ⟨true, .mixed, 1, .leaf 0 [0, 0], [0, 0],
        some [.normal, .normal], .Elliptical [1, 1], .Elliptical [1, 1],
        .Elliptical [1, 1], 1, 0⟩
      ⟨true, false, 0, 14, 14, 7, 7⟩) 0 =
      (⟨true, false, 0, 14, 14, 7, 7⟩ : PARAM_DESC).HalfRange := by
  refine ⟨⟨rfl, by decide, by decide⟩, ?_⟩
  exact (StandardDeviationByDistribution lm0
    ⟨true, .mixed, 1, .leaf 0 [0, 0], [0, 0],
      some [.normal, .normal], .Elliptical [1, 1], .Elliptical [1, 1],
      .Elliptical [1, 1], 1, 0⟩
    0 0 ⟨true, false, 0, 14, 14, 7, 7⟩
    ⟨0, [], [], []⟩).2.2.2.2.2.1 rfl (by decide) (by decide)

/-- C4: inside `MakePrototype`, once the multi-character filter passes, a
cluster with fewer than `max 1 ⌊config.MinSamples * NumChar⌋` samples gets a
degenerate prototype: the requested style (`automatic` degrades to
elliptical, as in the source's switch), a copy of the cluster mean, all
variances floored at `MINVARIANCE`, and `Significant = false`; a cluster
with at least that many samples never receives a degenerate prototype. -/
theorem DegenerateProtoGuard (lm : LIBM) (N : ℕ) (pd : List PARAM_DESC)
    (NumChar : ℤ) (cfg : CLUSTERCONFIG) (cluster : CLUSTER)
    (hmcs : MultipleCharSamples NumChar cluster cfg.MaxIllegal = false) :
    ((cluster.SampleCount : ℤ) < max 1 ⌊cfg.MinSamples * (NumChar : ℚ)⌋ →
      ∃ pr, MakePrototype lm N pd NumChar cfg cluster = some pr ∧
        pr.Significant = false ∧
        pr.Mean = (List.range N).map (fun i => cluster.Mean.getD i 0) ∧
        (cfg.ProtoStyle = .spherical → pr.Style = .spherical ∧
          pr.Variance = .Spherical
            (if (ComputeStatistics lm N pd cluster).AvgVariance < MINVARIANCE
              then MINVARIANCE
              else (ComputeStatistics lm N pd cluster).AvgVariance)) ∧
        ((cfg.ProtoStyle = .elliptical ∨ cfg.ProtoStyle = .automatic) →
          pr.Style = .elliptical ∧
          pr.Variance = .Elliptical ((List.range N).map fun i =>
            if (ComputeStatistics lm N pd cluster).CoVariance.getD
                (i * (N + 1)) 0 < MINVARIANCE
              then MINVARIANCE
              else (ComputeStatistics lm N pd cluster).CoVariance.getD
                (i * (N + 1)) 0)) ∧
        (cfg.ProtoStyle = .mixed → pr.Style = .mixed ∧
          pr.Variance = .Elliptical ((List.range N).map fun i =>
            if (ComputeStatistics lm N pd cluster).CoVariance.getD
                (i * (N + 1)) 0 < MINVARIANCE
              then MINVARIANCE
              else (ComputeStatistics lm N pd cluster).CoVariance.getD
                (i * (N + 1)) 0))) ∧
    (¬ (cluster.SampleCount : ℤ) < max 1 ⌊cfg.MinSamples * (NumChar : ℚ)⌋ →
      MakeDegenerateProto lm N cluster (ComputeStatistics lm N pd cluster)
        cfg.ProtoStyle ⌊cfg.MinSamples * (NumChar : ℚ)⌋ = none) := by
  have heq : (if ⌊cfg.MinSamples * (NumChar : ℚ)⌋ < MINSAMPLESNEEDED
      then MINSAMPLESNEEDED else ⌊cfg.MinSamples * (NumChar : ℚ)⌋) =
      max 1 ⌊cfg.MinSamples * (NumChar : ℚ)⌋ := by
    simp only [MINSAMPLESNEEDED]
    rw [max_def]
    split_ifs <;> omega
  constructor
  · intro hlt
    cases hst : cfg.ProtoStyle with
    | spherical =>
      have hdeg : MakeDegenerateProto lm N cluster
          (ComputeStatistics lm N pd cluster) cfg.ProtoStyle
          ⌊cfg.MinSamples * (NumChar : ℚ)⌋ =
          some { NewSphericalProto lm N cluster
            (ComputeStatistics lm N pd cluster) with Significant := false } := by
        simp only [MakeDegenerateProto, hst]
        rw [heq, if_pos hlt]
      refine ⟨{ NewSphericalProto lm N cluster
          (ComputeStatistics lm N pd cluster) with Significant := false },
        ?_, rfl, rfl, fun _ => ⟨rfl, rfl⟩, ?_, ?_⟩
      · simp only [MakePrototype, hmcs, Bool.false_eq_true, if_false]
        rw [hdeg]
      · intro h
        rcases h with h | h <;> exact absurd h (by simp [hst])
      · intro h
        exact absurd h (by simp [hst])
    | elliptical =>
      have hdeg : MakeDegenerateProto lm N cluster
          (ComputeStatistics lm N pd cluster) cfg.ProtoStyle
          ⌊cfg.MinSamples * (NumChar : ℚ)⌋ =
          some { NewEllipticalProto lm N cluster
            (ComputeStatistics lm N pd cluster) with Significant := false } := by
        simp only [MakeDegenerateProto, hst]
        rw [heq, if_pos hlt]
      refine ⟨{ NewEllipticalProto lm N cluster
          (ComputeStatistics lm N pd cluster) with Significant := false },
        ?_, rfl, rfl, ?_, fun _ => ⟨rfl, rfl⟩, ?_⟩
      · simp only [MakePrototype, hmcs, Bool.false_eq_true, if_false]
        rw [hdeg]
      · intro h
        exact absurd h (by simp [hst])
      · intro h
        exact absurd h (by simp [hst])
    | automatic =>
      have hdeg : MakeDegenerateProto lm N cluster
          (ComputeStatistics lm N pd cluster) cfg.ProtoStyle
          ⌊cfg.MinSamples * (NumChar : ℚ)⌋ =
          some { NewEllipticalProto lm N cluster
            (ComputeStatistics lm N pd cluster) with Significant := false } := by
        simp only [MakeDegenerateProto, hst]
        rw [heq, if_pos hlt]
      refine ⟨{ NewEllipticalProto lm N cluster
          (ComputeStatistics lm N pd cluster) with Significant := false },
        ?_, rfl, rfl, ?_, fun _ => ⟨rfl, rfl⟩, ?_⟩
      · simp only [MakePrototype, hmcs, Bool.false_eq_true, if_false]
        rw [hdeg]
      · intro h
        exact absurd h (by simp [hst])
      · intro h
        exact absurd h (by simp [hst])
    | mixed =>
      have hdeg : MakeDegenerateProto lm N cluster
          (ComputeStatistics lm N pd cluster) cfg.ProtoStyle
          ⌊cfg.MinSamples * (NumChar : ℚ)⌋ =
          some { NewMixedProto lm N cluster
            (ComputeStatistics lm N pd cluster) with Significant := false } := by
        simp only [MakeDegenerateProto, hst]
        rw [heq, if_pos hlt]
      refine ⟨{ NewMixedProto lm N cluster
          (ComputeStatistics lm N pd cluster) with Significant := false },
        ?_, rfl, rfl, ?_, ?_, fun _ => ⟨rfl, rfl⟩⟩
      · simp only [MakePrototype, hmcs, Bool.false_eq_true, if_false]
        rw [hdeg]
      · intro h
        exact absurd h (by simp [hst])
      · intro h
        rcases h with h | h <;> exact absurd h (by simp [hst])
  · intro hge
    simp only [MakeDegenerateProto]
    rw [heq, if_neg hge]

/-- Witness for C4: two samples with distinct char ids, threshold
`max 1 ⌊1 * 3⌋ = 3`; the cluster is degenerate and `MakePrototype` yields an
insignificant prototype. -/
theorem DegenerateProtoGuardWitness :
    (MultipleCharSamples 3 (.node 2 [0] (.leaf 0 [0]) (.leaf 1 [0]))
        (⟨.spherical, 1, 1, 0, 0⟩ : CLUSTERCONFIG).MaxIllegal = false ∧
      ((CLUSTER.node 2 [0] (.leaf 0 [0]) (.leaf 1 [0])).SampleCount : ℤ) <
        max 1 ⌊(⟨.spherical, 1, 1, 0, 0⟩ : CLUSTERCONFIG).MinSamples *
          ((3 : ℤ) : ℚ)⌋) ∧
    (∃ pr, MakePrototype lm0 1 [default] 3 ⟨.spherical, 1, 1, 0, 0⟩
        (.node 2 [0] (.leaf 0 [0]) (.leaf 1 [0])) = some pr ∧
      pr.Significant = false) := by
  refine ⟨⟨by decide, by norm_num [CLUSTER.SampleCount]⟩, ?_⟩
  obtain ⟨pr, h1, h2, _⟩ := (DegenerateProtoGuard lm0 1 [default] 3
    ⟨.spherical, 1, 1, 0, 0⟩ (.node 2 [0] (.leaf 0 [0]) (.leaf 1 [0]))
    (by decide)).1 (by norm_num [CLUSTER.SampleCount])
  exact ⟨pr, h1, h2⟩

theorem Independent_true_iff (lm : LIBM) (pd : List PARAM_DESC) (N : ℕ)
    (cov : List ℚ) (ind : ℚ) :
    Independent lm pd N cov ind = true ↔
      ∀ i j, i < j → j < N → (pd.getD i default).NonEssential = false →
        (pd.getD j default).NonEssential = false →
        CorrelationCoeff lm cov N i j ≤ ind := by
  simp only [Independent, List.all_eq_true, List.mem_range]
  constructor
  · intro h i j hij hj hei hej
    have hi : i < N := lt_trans hij hj
    have h1 := h i hi
    rw [if_neg (by rw [hei]; simp)] at h1
    have h2 := List.all_eq_true.mp h1 j
      (by rw [List.mem_range'_1]; omega)
    rw [if_neg (by rw [hej]; simp)] at h2
    exact of_decide_eq_true h2
  · intro h i hi
    by_cases hei : (pd.getD i default).NonEssential = true
    · rw [if_pos hei]
    · rw [if_neg hei]
      apply List.all_eq_true.mpr
      intro j hj
      rw [List.mem_range'_1] at hj
      by_cases hej : (pd.getD j default).NonEssential = true
      · rw [if_pos hej]
      · rw [if_neg hej]
        apply decide_eq_true
        have hei' : (pd.getD i default).NonEssential = false := by
          revert hei
          cases (pd.getD i default).NonEssential <;> simp
        have hej' : (pd.getD j default).NonEssential = false := by
          revert hej
          cases (pd.getD j default).NonEssential <;> simp
        exact h i j (by omega) (by omega) hei' hej'

/-- C5: `Independent` scans only the strict upper triangle of the covariance
matrix over essential dimensions, computing each correlation as
`sqrt (sqrt (cov_ij^2 / (cov_ii * cov_jj)))` — the double square root of
`CorrelationCoeff` — or `0` when a diagonal entry is zero; it fails exactly
when some such off-diagonal correlation exceeds the independence threshold
(pairs with a nonessential dimension are skipped), and inside
`MakePrototype` a failed guard — after the multi-character filter and the
degenerate check pass — makes it return no prototype. -/
theorem IndependenceGuard (lm : LIBM) (pd : List PARAM_DESC) (N : ℕ)
    (cov : List ℚ) (ind : ℚ) (NumChar : ℤ) (cfg : CLUSTERCONFIG)
    (cluster : CLUSTER) :
    (Independent lm pd N cov ind = false ↔
      ∃ i j, i < j ∧ j < N ∧ (pd.getD i default).NonEssential = false ∧
        (pd.getD j default).NonEssential = false ∧
        ind < CorrelationCoeff lm cov N i j) ∧
    (MultipleCharSamples NumChar cluster cfg.MaxIllegal = false →
      MakeDegenerateProto lm N cluster (ComputeStatistics lm N pd cluster)
        cfg.ProtoStyle ⌊cfg.MinSamples * (NumChar : ℚ)⌋ = none →
      Independent lm pd N (ComputeStatistics lm N pd cluster).CoVariance
        cfg.Independence = false →
      MakePrototype lm N pd NumChar cfg cluster = none) := by
  constructor
  · rw [Bool.eq_false_iff, Ne, Independent_true_iff]
    push_neg
    rfl
  · intro hmcs hdeg hindep
    simp only [MakePrototype, hmcs, Bool.false_eq_true, if_false]
    rw [hdeg, hindep]
    simp

/-- Witness for C5: two perfectly correlated two-dimensional samples; with
the identity sqrt oracle the correlation is `1 > 1/2` and `MakePrototype`
rejects the cluster. -/
theorem IndependenceGuardWitness :
    (MultipleCharSamples 2 wTree2
        (⟨.spherical, 0, 1, 1/2, 0⟩ : CLUSTERCONFIG).MaxIllegal = false ∧
      MakeDegenerateProto lmId 2 wTree2
        (ComputeStatistics lmId 2 wPD2 wTree2)
        (⟨.spherical, 0, 1, 1/2, 0⟩ : CLUSTERCONFIG).ProtoStyle
        ⌊(⟨.spherical, 0, 1, 1/2, 0⟩ : CLUSTERCONFIG).MinSamples *
          ((2 : ℤ) : ℚ)⌋ = none ∧
      Independent lmId wPD2 2
        (ComputeStatistics lmId 2 wPD2 wTree2).CoVariance
        (⟨.spherical, 0, 1, 1/2, 0⟩ : CLUSTERCONFIG).Independence = false) ∧
    MakePrototype lmId 2 wPD2 2 ⟨.spherical, 0, 1, 1/2, 0⟩
      wTree2 = none := by
  have hfl : ⌊(⟨PROTOSTYLE.spherical, 0, 1, 1/2, 0⟩ : CLUSTERCONFIG).MinSamples *
      ((2 : ℤ) : ℚ)⌋ = (0 : ℤ) := by norm_num
  have hmcs : MultipleCharSamples 2 wTree2
      (⟨PROTOSTYLE.spherical, 0, 1, 1/2, 0⟩ : CLUSTERCONFIG).MaxIllegal = false := by
    decide
  have hdeg : MakeDegenerateProto lmId 2 wTree2
      (ComputeStatistics lmId 2 wPD2 wTree2)
      (⟨PROTOSTYLE.spherical, 0, 1, 1/2, 0⟩ : CLUSTERCONFIG).ProtoStyle
      ⌊(⟨PROTOSTYLE.spherical, 0, 1, 1/2, 0⟩ : CLUSTERCONFIG).MinSamples *
        ((2 : ℤ) : ℚ)⌋ = none := by
    rw [hfl]
    decide
  have hsearch : SampleSearchAll wTree2 =
      [.leaf 0 [0, 0], .leaf 1 [2, 2]] := by
    rw [SampleSearchAll_eq_leaves]
    rfl
  have hcov : (ComputeStatistics lmId 2 wPD2 wTree2).CoVariance =
      [2, 2, 2, 2] := by
    show ((CSLoop 2 wPD2 wTree2.Mean (SampleSearchAll wTree2)
        (List.replicate 2 0, List.replicate 2 0,
          List.replicate (2 * 2) 0)).2.2).map
      (· / ((if wTree2.SampleCount > 1 then wTree2.SampleCount - 1
        else 1 : ℕ) : ℚ)) = [2, 2, 2, 2]
    rw [hsearch]
    norm_num [CSLoop, SampleDeviations, Deviation, wTree2, wPD2, CLUSTER.Mean,
      CLUSTER.SampleCount, List.range_succ, List.getD_cons_zero,
      List.getD_cons_succ, List.replicate, min_def, max_def]
  have hindep : Independent lmId wPD2 2
      (ComputeStatistics lmId 2 wPD2 wTree2).CoVariance
      (⟨PROTOSTYLE.spherical, 0, 1, 1/2, 0⟩ : CLUSTERCONFIG).Independence =
      false := by
    rw [hcov]
    norm_num [Independent, CorrelationCoeff, lmId, wPD2, List.range_succ,
      List.getD_cons_zero, List.getD_cons_succ, List.range']
  refine ⟨⟨hmcs, hdeg, hindep⟩, ?_⟩
  exact (IndependenceGuard lmId wPD2 2 [] 0 2
    ⟨.spherical, 0, 1, 1/2, 0⟩ wTree2).2 hmcs hdeg hindep

theorem ONBLoop_ge (sc : ℕ) :
    ∀ (tbl : List (ℕ × ℕ)) (last : ℕ × ℕ), 5 ≤ last.2 → last.1 ≤ sc →
      List.Chain (fun a b : ℕ × ℕ => a.1 < b.1 ∧ a.2 ≤ b.2) last tbl →
      5 ≤ ONBLoop sc last tbl := by
  intro tbl
  induction tbl with
  | nil =>
    intro last h5 _ _
    cases last with
    | mk lc lb => exact h5
  | cons p rest ih =>
    intro last h5 hle hchain
    cases hchain with
    | cons hrel hchain2 =>
      cases last with
      | mk lc lb =>
        cases p with
        | mk nc nb =>
          simp only [ONBLoop]
          by_cases hsc : sc ≤ nc
          · rw [if_pos hsc]
            have hlc : (lc : ℚ) < (nc : ℚ) := by exact_mod_cast hrel.1
            have hlb : (lb : ℚ) ≤ (nb : ℚ) := by exact_mod_cast hrel.2
            have hslope : (0 : ℚ) ≤ ((nb : ℚ) - lb) / ((nc : ℚ) - lc) :=
              div_nonneg (by linarith) (by linarith)
            have hfac : (0 : ℚ) ≤ (sc : ℚ) - lc := by
              have : (lc : ℚ) ≤ (sc : ℚ) := by exact_mod_cast hle
              linarith
            have hfloor : (lb : ℤ) ≤
                ⌊(lb : ℚ) + ((nb : ℚ) - lb) / ((nc : ℚ) - lc) *
                  ((sc : ℚ) - lc)⌋ := by
              apply Int.le_floor.mpr
              push_cast
              nlinarith [mul_nonneg hslope hfac]
            omega
          · rw [if_neg hsc]
            exact ih (nc, nb) (le_trans h5 hrel.2) (by omega) hchain2

theorem OptimumNumberOfBuckets_ge5 (sc : ℕ) :
    5 ≤ OptimumNumberOfBuckets sc := by
  unfold OptimumNumberOfBuckets
  by_cases h : sc < 25
  · rw [if_pos h]
  · rw [if_neg h]
    apply ONBLoop_ge
    · norm_num
    · omega
    · show List.Chain _ (25, 5) [(200, 16), (400, 20), (600, 24), (800, 27),
        (1000, 30), (1500, 35), (2000, 39)]
      refine List.Chain.cons (by norm_num) ?_
      refine List.Chain.cons (by norm_num) ?_
      refine List.Chain.cons (by norm_num) ?_
      refine List.Chain.cons (by norm_num) ?_
      refine List.Chain.cons (by norm_num) ?_
      refine List.Chain.cons (by norm_num) ?_
      refine List.Chain.cons (by norm_num) ?_
      exact List.Chain.nil

theorem MBStep_CurrentBucket_lt (lm : LIBM) (d : DISTRIBUTION)
    (B sc : ℕ) (st : MBState) (i : ℕ) (h1 : st.CurrentBucket < B) :
    (MBStep lm d B sc st i).CurrentBucket < B := by
  simp only [MBStep]
  split_ifs <;> omega

theorem MBfold_bucket_lt (lm : LIBM) (d : DISTRIBUTION) (B sc : ℕ) :
    ∀ (l : List ℕ) (st : MBState), st.CurrentBucket < B →
      (∀ e ∈ st.BucketTbl, e < B) →
      ((l.foldl (MBStep lm d B sc) st).CurrentBucket < B ∧
        ∀ e ∈ (l.foldl (MBStep lm d B sc) st).BucketTbl, e < B) := by
  intro l
  induction l with
  | nil => intro st h1 h2; exact ⟨h1, h2⟩
  | cons i rest ih =>
    intro st h1 h2
    rw [List.foldl_cons]
    apply ih
    · exact MBStep_CurrentBucket_lt lm d B sc st i h1
    · intro e he
      have hmem : e ∈ st.BucketTbl ++ [(MBStep lm d B sc st i).CurrentBucket] := he
      rcases List.mem_append.mp hmem with hm | hm
      · exact h2 e hm
      · rw [List.mem_singleton.mp hm]
        exact MBStep_CurrentBucket_lt lm d B sc st i h1

theorem MBfold_bucket_length (lm : LIBM) (d : DISTRIBUTION) (B sc : ℕ) :
    ∀ (l : List ℕ) (st : MBState),
      ((l.foldl (MBStep lm d B sc) st).BucketTbl).length =
        st.BucketTbl.length + l.length := by
  intro l
  induction l with
  | nil => intro st; simp
  | cons i rest ih =>
    intro st
    rw [List.foldl_cons, ih]
    have hb : (MBStep lm d B sc st i).BucketTbl =
        st.BucketTbl ++ [(MBStep lm d B sc st i).CurrentBucket] := rfl
    rw [hb]
    simp only [List.length_append, List.length_cons, List.length_nil]
    omega

theorem mirrorAppend_getD_lt (B : ℕ) (hB : 0 < B) (l : List ℕ)
    (hlt : ∀ e ∈ l, e < B) (t : ℕ) :
    (((List.range 512).map fun i => B - 1 - l.getD (511 - i) 0) ++ l).getD t 0
      < B := by
  have hml : ((List.range 512).map fun i =>
      B - 1 - l.getD (511 - i) 0).length = 512 := by
    rw [List.length_map, List.length_range]
  by_cases hlow : t < 512
  · have h1 : t < ((List.range 512).map fun i =>
        B - 1 - l.getD (511 - i) 0).length := by rw [hml]; exact hlow
    rw [List.getD_append _ _ _ _ h1, getD_range_map _ 512 t 0 hlow]
    omega
  · have h2 : ((List.range 512).map fun i =>
        B - 1 - l.getD (511 - i) 0).length ≤ t := by rw [hml]; omega
    rw [List.getD_append_right _ _ _ _ h2, hml]
    by_cases hidx : t - 512 < l.length
    · rw [List.getD_eq_getElem _ 0 hidx]
      exact hlt _ (List.getElem_mem hidx)
    · rw [List.getD_eq_default _ 0 (by omega)]
      exact hB

theorem MakeBuckets_table_lt (lm : LIBM) (d : DISTRIBUTION) (sc : ℕ)
    (conf : ℚ) (t : ℕ) :
    (MakeBuckets lm d sc conf).Bucket.getD t 0 <
      (MakeBuckets lm d sc conf).NumberOfBuckets := by
  have hB5 : 5 ≤ OptimumNumberOfBuckets sc := OptimumNumberOfBuckets_ge5 sc
  have hfold := MBfold_bucket_lt lm d (OptimumNumberOfBuckets sc) sc
    (List.range' 512 512)
    { CurrentBucket := OptimumNumberOfBuckets sc / 2
      NextBucketBoundary := if OptimumNumberOfBuckets sc % 2 = 1 then
          1 / (2 * (OptimumNumberOfBuckets sc : ℚ))
        else 1 / (OptimumNumberOfBuckets sc : ℚ)
      Probability := 0
      LastProbDensity := DensityFunction lm d 512
      BucketTbl := []
      EC := List.replicate (OptimumNumberOfBuckets sc) 0 }
    (by show OptimumNumberOfBuckets sc / 2 < OptimumNumberOfBuckets sc; omega)
    (by intro e he; simp at he)
  show (((List.range 512).map fun i => OptimumNumberOfBuckets sc - 1 -
      ((List.range' 512 512).foldl (MBStep lm d (OptimumNumberOfBuckets sc) sc)
        _).BucketTbl.getD (511 - i) 0) ++
      ((List.range' 512 512).foldl (MBStep lm d (OptimumNumberOfBuckets sc) sc)
        _).BucketTbl).getD t 0 < OptimumNumberOfBuckets sc
  exact mirrorAppend_getD_lt _ (by omega) _ hfold.2 t

theorem MakeBuckets_table_length (lm : LIBM) (d : DISTRIBUTION) (sc : ℕ)
    (conf : ℚ) : (MakeBuckets lm d sc conf).Bucket.length = 1024 := by
  have hlen := MBfold_bucket_length lm d (OptimumNumberOfBuckets sc) sc
    (List.range' 512 512)
    { CurrentBucket := OptimumNumberOfBuckets sc / 2
      NextBucketBoundary := if OptimumNumberOfBuckets sc % 2 = 1 then
          1 / (2 * (OptimumNumberOfBuckets sc : ℚ))
        else 1 / (OptimumNumberOfBuckets sc : ℚ)
      Probability := 0
      LastProbDensity := DensityFunction lm d 512
      BucketTbl := []
      EC := List.replicate (OptimumNumberOfBuckets sc) 0 }
  show (((List.range 512).map _) ++
      ((List.range' 512 512).foldl (MBStep lm d (OptimumNumberOfBuckets sc) sc)
        _).BucketTbl).length = 1024
  rw [List.length_append, List.length_map, List.length_range, hlen]
  simp

theorem getD_map_mul (l : List ℚ) (r : ℚ) (n : ℕ) :
    (l.map (· * r)).getD n 0 = l.getD n 0 * r := by
  induction l generalizing n with
  | nil => simp
  | cons a t ih =>
    cases n with
    | zero => rfl
    | succ n => exact ih n

theorem setMapScale (E : List ℚ) (cb : ℕ) (delta : ℚ) (oldc newc : ℕ)
    (r : ℚ) (hr : (oldc : ℚ) * r = (newc : ℚ)) :
    (E.map (· * r)).set cb ((E.map (· * r)).getD cb 0 + delta * (newc : ℚ)) =
      (E.set cb (E.getD cb 0 + delta * (oldc : ℚ))).map (· * r) := by
  have hv : (E.getD cb 0 + delta * (oldc : ℚ)) * r
      = E.getD cb 0 * r + delta * (newc : ℚ) := by
    rw [add_mul, mul_assoc, hr]
  rw [getD_map_mul, ← hv, mapSetComm]

theorem MBStep_EC_scale (lm : LIBM) (d : DISTRIBUTION) (B oldc newc : ℕ)
    (r : ℚ) (hr : (oldc : ℚ) * r = (newc : ℚ)) (st : MBState) (i : ℕ) :
    MBStep lm d B newc { st with EC := st.EC.map (· * r) } i =
      { MBStep lm d B oldc st i with
        EC := (MBStep lm d B oldc st i).EC.map (· * r) } := by
  cases st with
  | mk cb nb p lpd bt ec =>
    simp only [MBStep, MBState.mk.injEq, true_and]
    exact setMapScale ec _ _ oldc newc r hr

theorem MBfold_EC_scale (lm : LIBM) (d : DISTRIBUTION) (B oldc newc : ℕ)
    (r : ℚ) (hr : (oldc : ℚ) * r = (newc : ℚ)) :
    ∀ (l : List ℕ) (st : MBState),
      l.foldl (MBStep lm d B newc) { st with EC := st.EC.map (· * r) } =
        { l.foldl (MBStep lm d B oldc) st with
          EC := (l.foldl (MBStep lm d B oldc) st).EC.map (· * r) } := by
  intro l
  induction l with
  | nil => intro st; rfl
  | cons i rest ih =>
    intro st
    rw [List.foldl_cons, List.foldl_cons,
      MBStep_EC_scale lm d B oldc newc r hr st i]
    exact ih (MBStep lm d B oldc st i)

theorem EC_scale_step (B oldc newc : ℕ) (r : ℚ)
    (hr : (oldc : ℚ) * r = (newc : ℚ)) (E : List ℚ) (cb : ℕ) (P : ℚ) :
    (List.range B).map (fun i =>
      if i ≤ B - 1 - i then
        ((E.map (· * r)).set cb ((E.map (· * r)).getD cb 0
          + (1 / 2 - P) * (newc : ℚ))).getD i 0
        + ((E.map (· * r)).set cb ((E.map (· * r)).getD cb 0
          + (1 / 2 - P) * (newc : ℚ))).getD (B - 1 - i) 0
      else ((E.map (· * r)).set cb ((E.map (· * r)).getD cb 0
          + (1 / 2 - P) * (newc : ℚ))).getD i 0) =
    ((List.range B).map (fun i =>
      if i ≤ B - 1 - i then
        (E.set cb (E.getD cb 0 + (1 / 2 - P) * (oldc : ℚ))).getD i 0
        + (E.set cb (E.getD cb 0 + (1 / 2 - P) * (oldc : ℚ))).getD (B - 1 - i) 0
      else (E.set cb (E.getD cb 0 + (1 / 2 - P) * (oldc : ℚ))).getD i 0)).map
      (· * r) := by
  have hA := setMapScale E cb (1 / 2 - P) oldc newc r hr
  simp only [hA]
  rw [List.map_map]
  apply List.map_congr_left
  intro i _
  simp only [Function.comp_apply]
  simp only [getD_map_mul]
  split_ifs <;> ring

theorem MakeBucketsCore_scale (d : DISTRIBUTION) (B oldc newc : ℕ) (r : ℚ)
    (hr : (oldc : ℚ) * r = (newc : ℚ)) (conf chi : ℚ) (F : MBState) :
    MakeBucketsCore d newc conf chi B { F with EC := F.EC.map (· * r) } =
      { MakeBucketsCore d oldc conf chi B F with
        SampleCount := newc
        ExpectedCount := (MakeBucketsCore d oldc conf chi B F).ExpectedCount.map
          (· * r) } := by
  cases F with
  | mk cb nb p lpd bt ec =>
    simp only [MakeBucketsCore, BUCKETS.mk.injEq, true_and]
    exact EC_scale_step B oldc newc r hr ec cb p

theorem MakeBucketsB_scale (lm : LIBM) (d : DISTRIBUTION) (B oldc newc : ℕ)
    (r : ℚ) (hr : (oldc : ℚ) * r = (newc : ℚ)) (conf : ℚ) :
    MakeBucketsB lm d B newc conf =
      { MakeBucketsB lm d B oldc conf with
        SampleCount := newc
        ExpectedCount := (MakeBucketsB lm d B oldc conf).ExpectedCount.map
          (· * r) } := by
  have heq : (⟨B / 2,
      if B % 2 = 1 then 1 / (2 * (B : ℚ)) else 1 / (B : ℚ),
      0, DensityFunction lm d 512, [], List.replicate B 0⟩ : MBState) =
      (⟨B / 2,
        if B % 2 = 1 then 1 / (2 * (B : ℚ)) else 1 / (B : ℚ),
        0, DensityFunction lm d 512, [],
        (List.replicate B (0 : ℚ)).map (· * r)⟩ : MBState) := by
    simp [List.map_replicate]
  have hfold : (List.range' 512 512).foldl (MBStep lm d B newc)
      (⟨B / 2,
        if B % 2 = 1 then 1 / (2 * (B : ℚ)) else 1 / (B : ℚ),
        0, DensityFunction lm d 512, [], List.replicate B 0⟩ : MBState) =
      { (List.range' 512 512).foldl (MBStep lm d B oldc)
          (⟨B / 2,
            if B % 2 = 1 then 1 / (2 * (B : ℚ)) else 1 / (B : ℚ),
            0, DensityFunction lm d 512, [],
            List.replicate B 0⟩ : MBState) with
        EC := ((List.range' 512 512).foldl (MBStep lm d B oldc)
          (⟨B / 2,
            if B % 2 = 1 then 1 / (2 * (B : ℚ)) else 1 / (B : ℚ),
            0, DensityFunction lm d 512, [],
            List.replicate B 0⟩ : MBState)).EC.map (· * r) } := by
    conv_lhs => rw [heq]
    exact MBfold_EC_scale lm d B oldc newc r hr (List.range' 512 512)
      ⟨B / 2, if B % 2 = 1 then 1 / (2 * (B : ℚ)) else 1 / (B : ℚ),
        0, DensityFunction lm d 512, [], List.replicate B 0⟩
  show MakeBucketsCore d newc conf
      (ComputeChiSquared lm (DegreesOfFreedom d B) conf) B
      ((List.range' 512 512).foldl (MBStep lm d B newc)
        ⟨B / 2, if B % 2 = 1 then 1 / (2 * (B : ℚ)) else 1 / (B : ℚ),
          0, DensityFunction lm d 512, [], List.replicate B 0⟩) =
    { MakeBucketsCore d oldc conf
        (ComputeChiSquared lm (DegreesOfFreedom d B) conf) B
        ((List.range' 512 512).foldl (MBStep lm d B oldc)
          ⟨B / 2, if B % 2 = 1 then 1 / (2 * (B : ℚ)) else 1 / (B : ℚ),
            0, DensityFunction lm d 512, [], List.replicate B 0⟩) with
      SampleCount := newc
      ExpectedCount := (MakeBucketsCore d oldc conf
        (ComputeChiSquared lm (DegreesOfFreedom d B) conf) B
        ((List.range' 512 512).foldl (MBStep lm d B oldc)
          ⟨B / 2, if B % 2 = 1 then 1 / (2 * (B : ℚ)) else 1 / (B : ℚ),
            0, DensityFunction lm d 512, [],
            List.replicate B 0⟩)).ExpectedCount.map (· * r) }
  rw [hfold]
  exact MakeBucketsCore_scale d B oldc newc r hr conf
    (ComputeChiSquared lm (DegreesOfFreedom d B) conf) _

theorem MakeBucketsB_reuse (lm : LIBM) (d : DISTRIBUTION) (B : ℕ)
    (oldc newc : ℕ) (h0 : oldc ≠ 0) (oldconf newconf : ℚ) :
    InitBuckets (ConfidenceUpdate lm
      (AdjustBuckets (MakeBucketsB lm d B oldc oldconf) newc) newconf) =
      MakeBucketsB lm d B newc newconf := by
  have hr : ((oldc : ℚ)) * ((newc : ℚ) / (oldc : ℚ)) = (newc : ℚ) := by
    have h0q : ((oldc : ℚ)) ≠ 0 := Nat.cast_ne_zero.mpr h0
    field_simp
  have h1 : AdjustBuckets (MakeBucketsB lm d B oldc oldconf) newc =
      MakeBucketsB lm d B newc oldconf := by
    have hsc : (((MakeBucketsB lm d B oldc oldconf).SampleCount : ℕ) : ℚ) =
        ((oldc : ℕ) : ℚ) := rfl
    simp only [AdjustBuckets]
    rw [hsc]
    exact (MakeBucketsB_scale lm d B oldc newc
      ((newc : ℚ) / (oldc : ℚ)) hr oldconf).symm
  have h2 : ConfidenceUpdate lm (MakeBucketsB lm d B newc oldconf) newconf =
      MakeBucketsB lm d B newc newconf := by
    simp only [ConfidenceUpdate]
    by_cases hc : newconf = (MakeBucketsB lm d B newc oldconf).Confidence
    · rw [if_pos hc]
      have hco : (MakeBucketsB lm d B newc oldconf).Confidence = oldconf := rfl
      rw [hco] at hc
      rw [hc]
    · rw [if_neg hc]
      rfl
  rw [h1, h2]
  rfl

/-- The pool-reuse path of `GetBuckets` — rescale the expected counts to the
new sample count (`AdjustBuckets`), refresh the chi-squared threshold when
the confidence changed (`ConfidenceUpdate`), zero the observed counts
(`InitBuckets`) — reproduces `MakeBuckets` field for field whenever the
pooled structure was itself built by `MakeBuckets` for the same distribution
with the same optimum bucket count and a nonzero sample count. -/
theorem GetBucketsPoolReuseFaithful (lm : LIBM) (d : DISTRIBUTION)
    (oldc newc : ℕ) (h0 : oldc ≠ 0) (oldconf newconf : ℚ)
    (hB : OptimumNumberOfBuckets oldc = OptimumNumberOfBuckets newc) :
    InitBuckets (ConfidenceUpdate lm
      (AdjustBuckets (MakeBuckets lm d oldc oldconf) newc) newconf) =
      GetBuckets lm d newc newconf := by
  unfold GetBuckets MakeBuckets
  rw [hB]
  exact MakeBucketsB_reuse lm d (OptimumNumberOfBuckets newc) oldc newc h0
    oldconf newconf

theorem clampFloorLt (X : ℚ) :
    (if X < 0 then 0 else if X > 1023 then 1023 else (⌊X⌋).toNat) < 1024 := by
  split_ifs with h1 h2
  · norm_num
  · norm_num
  · have hle : X ≤ 1023 := le_of_not_lt h2
    have hfl : ⌊X⌋ ≤ 1023 := by
      calc ⌊X⌋ ≤ ⌊(1023 : ℚ)⌋ := Int.floor_mono hle
        _ = 1023 := by norm_num
    omega

theorem FillStatLoop_sum (bkts : BUCKETS) (dim : ℕ) (pdD : PARAM_DESC)
    (mean sd : ℚ) (hbt : ∀ k, bkts.Bucket.getD k 0 < bkts.NumberOfBuckets) :
    ∀ (ss : List CLUSTER) (counts : List ℕ),
      counts.length = bkts.NumberOfBuckets →
      (FillStatLoop bkts dim pdD mean sd ss counts).sum =
        counts.sum + ss.length := by
  intro ss
  induction ss with
  | nil => intro counts h; simp [FillStatLoop]
  | cons s rest ih =>
    intro counts h
    show (FillStatLoop bkts dim pdD mean sd rest _).sum = _
    rw [ih _ (by rw [List.length_set]; exact h)]
    rw [sumSetIncr _ _ (by rw [h]; exact hbt _)]
    simp only [List.length_cons]
    omega

/-- C10: every entry of the 1024-entry lookup table built by `MakeBuckets`
is a bucket index strictly below the bucket count; `NormalBucket` and
`UniformBucket` always clamp the discrete coordinate into `[0, 1023]`; and
consequently every observed-count increment of `FillBuckets` (statistical
branch) lands inside the `B` cells — the histogram total equals the number
of leaf samples, so no increment is lost to an out-of-range index. -/
theorem BucketTableSafety (lm : LIBM) (d : DISTRIBUTION) (sc : ℕ)
    (conf : ℚ) :
    (∀ t, t < 1024 →
      (MakeBuckets lm d sc conf).Bucket.getD t 0 <
        (MakeBuckets lm d sc conf).NumberOfBuckets) ∧
    (∀ (pdD : PARAM_DESC) (x mean sd : ℚ),
      NormalBucket pdD x mean sd < 1024 ∧ UniformBucket pdD x mean sd < 1024) ∧
    (∀ (cluster : CLUSTER) (dim : ℕ) (pdD : PARAM_DESC) (mean sd : ℚ),
      sd ≠ 0 →
      ((FillBuckets (MakeBuckets lm d sc conf) cluster dim pdD mean sd).Count).sum =
        cluster.leaves.length) := by
  have hB5 : 5 ≤ OptimumNumberOfBuckets sc := OptimumNumberOfBuckets_ge5 sc
  have hNB : (MakeBuckets lm d sc conf).NumberOfBuckets =
      OptimumNumberOfBuckets sc := rfl
  refine ⟨fun t _ => MakeBuckets_table_lt lm d sc conf t, ?_, ?_⟩
  · intro pdD x mean sd
    exact ⟨clampFloorLt _, clampFloorLt _⟩
  · intro cluster dim pdD mean sd hsd
    have hbt : ∀ k, (MakeBuckets lm d sc conf).Bucket.getD k 0 <
        (MakeBuckets lm d sc conf).NumberOfBuckets :=
      fun k => MakeBuckets_table_lt lm d sc conf k
    show (FillBuckets (MakeBuckets lm d sc conf) cluster dim pdD mean sd).Count.sum = _
    rw [FillBuckets, if_neg hsd]
    show (FillStatLoop (MakeBuckets lm d sc conf) dim pdD mean sd
      (SampleSearchAll cluster)
      (List.replicate (MakeBuckets lm d sc conf).NumberOfBuckets 0)).sum = _
    rw [FillStatLoop_sum (MakeBuckets lm d sc conf) dim pdD mean sd hbt
      (SampleSearchAll cluster) _ (by simp)]
    rw [SampleSearchAll_eq_leaves]
    simp

/-- Witness for C10: the uniform bucket table for 10 samples at table index
0, and a two-sample fill with nonzero standard deviation losing no counts. -/
theorem BucketTableSafetyWitness :
    ((0 : ℕ) < 1024 ∧
      (MakeBuckets lm0 .uniform 10 0).Bucket.getD 0 0 <
        (MakeBuckets lm0 .uniform 10 0).NumberOfBuckets) ∧
    ((1 : ℚ) ≠ 0 ∧
      ((FillBuckets (MakeBuckets lm0 .uniform 10 0) wTree2 0 default 1 1).Count).sum =
        wTree2.leaves.length) := by
  refine ⟨⟨by norm_num, ?_⟩, ⟨by norm_num, ?_⟩⟩
  · exact (BucketTableSafety lm0 .uniform 10 0).1 0 (by norm_num)
  · exact (BucketTableSafety lm0 .uniform 10 0).2.2 wTree2 0 default 1 1
      (by norm_num)

end Ocr
